import Mathlib

/-!
A shallow embedding of the `c-compiler` repository (Rust) in Lean 4, together
with theorems settling the frozen claims about its specification.

Embedding conventions:
* Rust `Result<T, String>` values are `Except RtErr T` with constructor `RtErr.err`;
  Rust panics (`panic!`, `assert!`, `assert_eq!`, `.unwrap()`, `.expect(..)`) are
  `RtErr.panic`.  A `?` in Rust is `Except` bind; `.or_else` catches only `err`-style
  results of the inner `Result`, never panics, matching Rust.
* Rust machine integers (`u64`, `u32`, `usize`) are `Nat`; every value the programs
  produce stays far below `2^64`, and the one place overflow semantics is observable
  (`str::parse::<u64>` rejecting out-of-range literals) carries an explicit `< 2^64` test.
* Rust `&str` / `String` text being scanned is `List Char`; the code's own comment
  assumes ASCII input, under which Rust byte offsets coincide with character indices.
* Loops whose termination is not structural (the tokenizer scan, the recursive-descent
  parser, the parent-chain symbol lookup) take an explicit fuel argument so that all
  definitions compute by kernel reduction; running out of fuel yields the distinguished
  result `RtErr.fuelOut`, which no real (terminating) execution produces.  Theorems about
  "the" result of such a function either quantify over fuel on the success path or prove
  fuel sufficiency outright.
* Rust `HashMap` contents are association lists with most-recent insertion first;
  `insert` conses, `extend other` prepends `other`'s entries, lookup takes the first hit.
  This reproduces `HashMap` observable behaviour at the keys the code queries.
-/

/-- Runtime outcome of fallible Rust code: a returned `Err`, a panic, or fuel
exhaustion of the embedding (never produced by a real execution). -/
inductive RtErr where
  | err (msg : String)
  | panic (msg : String)
  | fuelOut
deriving DecidableEq, Repr

/-- `Token` from `tokenizer.rs`.  Payloads are the matched text. -/
inductive Token where
  | openParen
  | closeParen
  | openBrace
  | closeBrace
  | semicolon
  | operator (s : String)
  | keyword (s : String)
  | identifier (s : String)
  | integerLiteral (n : Nat)
  | stringLiteral (s : String)
deriving DecidableEq, Repr

/-- `KEYWORDS` from `tokenizer.rs`. -/
def KEYWORDS : List String := ["int", "return", "if", "else"]

/-- `OPERATORS` from `tokenizer.rs`.  Note: `*` and `/` are absent. -/
def OPERATORS : List String := ["+", "-", "=", "=="]

/-- The `{` character (written via its code point). -/
def openBraceChar : Char := Char.ofNat 123

/-- The `}` character (written via its code point). -/
def closeBraceChar : Char := Char.ofNat 125

/-- Result of one of the three sub-tokenizers: a token with the number of
characters consumed, a recoverable non-match (`Err(())` in Rust, caught by
`or_else`), or a panic. -/
inductive SubTok where
  | ok (t : Token) (consumed : Nat)
  | noMatch
  | panic (msg : String)
deriving DecidableEq, Repr

/-- The scanning loop of `tokenize_operator`: advance `ptr` while the buffer
`s[..ptr+1]` is still a prefix of some operator at least that long.  Fuel
`s.length + 1` dominates the loop's `ptr < s.len()` guard. -/
def opLoop (s : List Char) : Nat → Nat → Nat
  | 0, ptr => ptr
  | fuel + 1, ptr =>
    if ptr < s.length then
      let buf := s.take (ptr + 1)
      if OPERATORS.any
          (fun op => decide (buf.length ≤ op.data.length ∧ buf = op.data.take (ptr + 1))) then
        opLoop s fuel (ptr + 1)
      else ptr
    else ptr

/-- `tokenize_operator` from `tokenizer.rs`. -/
def tokenize_operator (s : List Char) : SubTok :=
  if s.length = 0 then .panic "assertion failed: s.len() != 0"
  else
    let ptr := opLoop s (s.length + 1) 0
    let matched := s.take ptr
    if OPERATORS.any (fun op => op.data = matched) then
      .ok (.operator (String.mk matched)) matched.length
    else .noMatch

/-- `tokenize_string_literal` from `tokenizer.rs`.  A missing closing quote is a
panic (`.expect` on the `find` result), not a returned error. -/
def tokenize_string_literal (s : List Char) : SubTok :=
  if s.length = 0 then .panic "assertion failed: s.len() != 0"
  else if s.head? ≠ some '"' then .noMatch
  else
    match (s.drop 1).findIdx? (fun c => c = '"') with
    | none => .panic "Tokenization Error: String Literal: missing matching quote."
    | some idx => .ok (.stringLiteral (String.mk ((s.drop 1).take idx))) (idx + 2)

/-- Word characters for identifiers/keywords/integers: alphanumeric or `_`. -/
def isWordChar (c : Char) : Bool := c.isAlphanum || c = '_'

/-- `str::parse::<u64>` on a run of word characters: succeeds exactly on a
nonempty all-digit string whose value fits in `u64`. -/
def parseU64 (cs : List Char) : Option Nat :=
  if cs.length ≠ 0 && cs.all Char.isDigit then
    let v := cs.foldl (fun acc c => acc * 10 + (c.toNat - '0'.toNat)) 0
    if v < 2 ^ 64 then some v else none
  else none

/-- `tokenize_keywords_integers_ids` from `tokenizer.rs`. -/
def tokenize_keywords_integers_ids (s : List Char) : SubTok :=
  if s.length = 0 then .panic "assertion failed: s.len() != 0"
  else
    let substr := s.takeWhile isWordChar
    if substr.length = 0 then .noMatch
    else if KEYWORDS.any (fun k => k.data = substr) then
      .ok (.keyword (String.mk substr)) substr.length
    else
      match parseU64 substr with
      | some v => .ok (.integerLiteral v) substr.length
      | none => .ok (.identifier (String.mk substr)) substr.length

/-- The per-position classification step of `tokenize`'s main loop (everything
after the whitespace test): single-character structural tokens, else the
`or_else` chain of the three sub-tokenizers, with the final `.or` replacing a
non-match by the position-carrying error. -/
def tokenizeStep (s : List Char) (ptr : Nat) (c : Char) : Except RtErr (Token × Nat) :=
  if c = '(' then .ok (.openParen, 1)
  else if c = ')' then .ok (.closeParen, 1)
  else if c = openBraceChar then .ok (.openBrace, 1)
  else if c = closeBraceChar then .ok (.closeBrace, 1)
  else if c = ';' then .ok (.semicolon, 1)
  else
    match tokenize_operator (s.drop ptr) with
    | .ok t n => .ok (t, n)
    | .panic m => .error (.panic m)
    | .noMatch =>
      match tokenize_string_literal (s.drop ptr) with
      | .ok t n => .ok (t, n)
      | .panic m => .error (.panic m)
      | .noMatch =>
        match tokenize_keywords_integers_ids (s.drop ptr) with
        | .ok t n => .ok (t, n)
        | .panic m => .error (.panic m)
        | .noMatch =>
          .error (.err ("Tokenization error at position " ++ toString ptr
            ++ " character " ++ String.mk [c]))

/-- The `while ptr < s.len()` loop of `tokenize`.  Every iteration consumes at
least one character, so fuel `s.length - ptr + 1` suffices (proved below). -/
def tokenizeF (s : List Char) : Nat → Nat → Except RtErr (List Token)
  | 0, _ => .error .fuelOut
  | fuel + 1, ptr =>
    if h : ptr < s.length then
      let c := s.get ⟨ptr, h⟩
      if c.isWhitespace then tokenizeF s fuel (ptr + 1)
      else
        match tokenizeStep s ptr c with
        | .error e => .error e
        | .ok (t, n) =>
          match tokenizeF s fuel (ptr + n) with
          | .error e => .error e
          | .ok ts => .ok (t :: ts)
    else .ok []

/-- `tokenize` from `tokenizer.rs` (fuel `s.length + 1` is sufficient;
see `tokenize_total`). -/
def tokenize (s : String) : Except RtErr (List Token) :=
  tokenizeF s.data (s.data.length + 1) 0

/-- Rust `Debug` rendering of a `String`/`&str` (quotes around the text; the
messages formatted this way never contain characters needing escapes). -/
def debugStr (s : String) : String := "\"" ++ s ++ "\""

/-- Rust `derive(Debug)` rendering of a `Token`. -/
def debugToken : Token → String
  | .openParen => "OpenParen"
  | .closeParen => "CloseParen"
  | .openBrace => "OpenBrace"
  | .closeBrace => "CloseBrace"
  | .semicolon => "Semicolon"
  | .operator s => "Operator(" ++ debugStr s ++ ")"
  | .keyword s => "Keyword(" ++ debugStr s ++ ")"
  | .identifier s => "Identifier(" ++ debugStr s ++ ")"
  | .integerLiteral n => "IntegerLiteral(" ++ toString n ++ ")"
  | .stringLiteral s => "StringLiteral(" ++ debugStr s ++ ")"

/-- Rust `Debug` rendering of an `Option<&Token>`. -/
def debugOptionToken : Option Token → String
  | none => "None"
  | some t => "Some(" ++ debugToken t ++ ")"

/-- `BinOp` from `ast.rs`. -/
inductive BinOp where
  | add | sub | mul | div | assign | equals
deriving DecidableEq, Repr

/-- `BinOp::from_token` from `ast.rs`. -/
def BinOp.fromToken : Token → Except RtErr BinOp
  | .operator "+" => .ok .add
  | .operator "-" => .ok .sub
  | .operator "*" => .ok .mul
  | .operator "/" => .ok .div
  | .operator "=" => .ok .assign
  | .operator "==" => .ok .equals
  | t => .error (.err ("Cannot construct BinOp from " ++ debugToken t))

/-- `BinOp::precedence` from `ast.rs`. -/
def BinOp.precedence : BinOp → Nat
  | .add => 30
  | .sub => 30
  | .mul => 40
  | .div => 40
  | .assign => 10
  | .equals => 20

/-- `Type` from `ast.rs` (`Ty` here; `Type` is a Lean keyword). -/
inductive Ty where
  | void | int | char
  | userDefined (s : String)
deriving DecidableEq, Repr

/-- `Expr` from `ast.rs`. -/
inductive Expr where
  | intLiteral (n : Nat)
  | stringLiteral (s : String)
  | variable (s : String)
  | binaryOperation (op : BinOp) (left : Expr) (right : Expr)
deriving DecidableEq, Repr

/-- `VarInfo` from `ast.rs`. -/
structure VarInfo where
  name : String
  var_type : Ty
deriving DecidableEq, Repr

-- `Statement` and `Scope` from `ast.rs`.  They are mutually inductive;
-- `StmtList` and `OptScope` are specialized copies of `List Statement` and
-- `Option Scope` so the whole block is a plain (non-nested) mutual inductive,
-- over which structural recursion computes by kernel reduction.
mutual
/-- `Statement` from `ast.rs`. -/
inductive Stmt where
  | ret (e : Expr)
  | expression (e : Expr)
  | varDeclare (name : String) (varType : Ty) (value : Option Expr)
  | ifStmt (condition : Expr) (trueBlock : Scope) (falseBlock : OptScope)

/-- `Option<Scope>` as used inside `Statement::If`. -/
inductive OptScope where
  | none
  | some (s : Scope)

/-- `Scope` from `ast.rs`. -/
inductive Scope where
  | mk (id : Nat) (statements : StmtList)

/-- `Vec<Statement>` as stored in a `Scope`. -/
inductive StmtList where
  | nil
  | cons (head : Stmt) (tail : StmtList)
end

/-- The `id` field of a `Scope`. -/
def Scope.id : Scope → Nat
  | .mk i _ => i

/-- The `statements` field of a `Scope`. -/
def Scope.statements : Scope → StmtList
  | .mk _ s => s

/-- `Declaration` from `ast.rs`. -/
inductive Declaration where
  | function (name : String) (args : List VarInfo) (returnType : Ty) (scope : Scope)

/-- The `scope` field of a (function) `Declaration`. -/
def Declaration.scope : Declaration → Scope
  | .function _ _ _ s => s

/-- Rust `derive(Debug)` rendering of a `Type`. -/
def debugTy : Ty → String
  | .void => "Void"
  | .int => "Int"
  | .char => "Char"
  | .userDefined s => "UserDefined(" ++ debugStr s ++ ")"

/-- Rust `derive(Debug)` rendering of a `BinOp`. -/
def debugBinOp : BinOp → String
  | .add => "Add"
  | .sub => "Sub"
  | .mul => "Mul"
  | .div => "Div"
  | .assign => "Assign"
  | .equals => "Equals"

/-- Rust `derive(Debug)` rendering of an `Expr`. -/
def debugExpr : Expr → String
  | .intLiteral n => "IntLiteral(" ++ toString n ++ ")"
  | .stringLiteral s => "StringLiteral(" ++ debugStr s ++ ")"
  | .variable s => "Variable(" ++ debugStr s ++ ")"
  | .binaryOperation op l r =>
    "BinaryOperation \x7b op: " ++ debugBinOp op ++ ", left: " ++ debugExpr l
      ++ ", right: " ++ debugExpr r ++ " \x7d"

/-- Rust `Debug` rendering of an `Option<Expr>`. -/
def debugOptionExpr : Option Expr → String
  | Option.none => "None"
  | Option.some e => "Some(" ++ debugExpr e ++ ")"

-- Rust `derive(Debug)` rendering of `Statement`/`Scope` (mutual).
mutual
/-- Rust `derive(Debug)` rendering of a `Statement`. -/
def debugStmt : Stmt → String
  | .ret e => "Return(" ++ debugExpr e ++ ")"
  | .expression e => "Expression(" ++ debugExpr e ++ ")"
  | .varDeclare n t v =>
    "VarDeclare \x7b name: " ++ debugStr n ++ ", var_type: " ++ debugTy t
      ++ ", value: " ++ debugOptionExpr v ++ " \x7d"
  | .ifStmt c tb fb =>
    "If \x7b condition: " ++ debugExpr c ++ ", true_block: " ++ debugScope tb
      ++ ", false_block: " ++ debugOptScope fb ++ " \x7d"

/-- Rust `Debug` rendering of an `Option<Scope>`. -/
def debugOptScope : OptScope → String
  | .none => "None"
  | .some s => "Some(" ++ debugScope s ++ ")"

/-- Rust `derive(Debug)` rendering of a `Scope`. -/
def debugScope : Scope → String
  | .mk i stmts => "Scope \x7b id: " ++ toString i ++ ", statements: [" ++ debugStmtList stmts ++ "] \x7d"

/-- Rust `Debug` rendering of a statement list (the bracket interior). -/
def debugStmtList : StmtList → String
  | .nil => ""
  | .cons s .nil => debugStmt s
  | .cons s rest => debugStmt s ++ ", " ++ debugStmtList rest
end

/-- `Parser` state from `parser.rs`: the `pos` cursor plus the shared
`ScopeIdCounter` (`scope_id_counter.counter`).  The token slice is passed
separately since it never changes. -/
structure PState where
  pos : Nat
  counter : Nat
deriving DecidableEq, Repr

/-- `Parser::peek`. -/
def peekT (tokens : List Token) (st : PState) : Option Token := tokens.get? st.pos

/-- The state after a successful `Parser::advance`. -/
def bumpP (st : PState) : PState := { st with pos := st.pos + 1 }

/-- `Parser::expect`. -/
def expectT (tokens : List Token) (expected : Token) (st : PState) :
    Except RtErr (Token × PState) :=
  match peekT tokens st with
  | Option.some t =>
    if t = expected then .ok (t, bumpP st)
    else .error (.err ("Expected " ++ debugToken expected ++ ", but got " ++ debugToken t))
  | Option.none => .error (.err ("Expected " ++ debugToken expected ++ ", but got nothing."))

/-- `Scope::from_statements` from `ast.rs`: bump the shared counter and stamp
the new scope with it. -/
def Scope.from_statements (statements : StmtList) (st : PState) : Scope × PState :=
  (Scope.mk (st.counter + 1) statements, { st with counter := st.counter + 1 })

/-- Whether an optional token is an `Identifier` (the two-token lookahead of
`parse_statement`'s `(Identifier, Identifier)` dispatch arm). -/
def isIdentToken : Option Token → Bool
  | Option.some (.identifier _) => true
  | _ => false

/-- The type-consuming `match self.advance()` at the start of
`parse_variable_declaration` (named here for proof convenience; the Rust code
inlines it).  A failed advance formats `self.tokens[self.pos - 1]`, which
panics at position 0 (usize underflow) or past the end. -/
def parseTypeToken (tokens : List Token) (st : PState) : Except RtErr (Ty × PState) :=
  if peekT tokens st = Option.some (.keyword "void") then .ok (Ty.void, bumpP st)
  else if peekT tokens st = Option.some (.keyword "int") then .ok (Ty.int, bumpP st)
  else if peekT tokens st = Option.some (.keyword "char") then .ok (Ty.char, bumpP st)
  else
    match peekT tokens st with
    | Option.some (.identifier typeName) => .ok (Ty.userDefined typeName, bumpP st)
    | Option.some t =>
      .error (.err ("Error parsing type from token " ++ debugToken t
        ++ " at position " ++ toString st.pos))
    | Option.none =>
      if st.pos = 0 then .error (.panic "attempt to subtract with overflow")
      else
        match tokens.get? (st.pos - 1) with
        | Option.some t =>
          .error (.err ("Error parsing type from token " ++ debugToken t
            ++ " at position " ++ toString (st.pos - 1)))
        | Option.none => .error (.panic "index out of bounds")

/-- The variable-name-consuming `match self.advance()` in
`parse_variable_declaration` (same conventions as `parseTypeToken`). -/
def parseNameToken (tokens : List Token) (st : PState) : Except RtErr (String × PState) :=
  match peekT tokens st with
  | Option.some (.identifier varName) => .ok (varName, bumpP st)
  | Option.some t =>
    .error (.err ("Error parsing variable name from token " ++ debugToken t
      ++ " at position " ++ toString st.pos))
  | Option.none =>
    if st.pos = 0 then .error (.panic "attempt to subtract with overflow")
    else
      match tokens.get? (st.pos - 1) with
      | Option.some t =>
        .error (.err ("Error parsing variable name from token " ++ debugToken t
          ++ " at position " ++ toString (st.pos - 1)))
      | Option.none => .error (.panic "index out of bounds")

-- The recursive-descent parser from `parser.rs`.  All functions take the same
-- fuel and recurse at one less; real executions always terminate (every
-- statement consumes at least one token), so a large enough fuel reproduces the
-- Rust behaviour and `RtErr.fuelOut` never escapes a real run.
mutual
/-- `Parser::parse_primary_expression`. -/
def parse_primary_expression (tokens : List Token) : Nat → PState → Except RtErr (Expr × PState)
  | 0, _ => .error .fuelOut
  | fuel + 1, st =>
    match peekT tokens st with
    | Option.some (.integerLiteral i) => .ok (.intLiteral i, bumpP st)
    | Option.some (.stringLiteral s) => .ok (.stringLiteral s, bumpP st)
    | Option.some (.identifier n) => .ok (.variable n, bumpP st)
    | Option.some .openParen => parse_parenthesis tokens fuel st
    | _ =>
      .error (.err ("Error parsing token " ++ debugOptionToken (peekT tokens st)
        ++ " at position " ++ toString st.pos))

/-- `Parser::parse_parenthesis`. -/
def parse_parenthesis (tokens : List Token) : Nat → PState → Except RtErr (Expr × PState)
  | 0, _ => .error .fuelOut
  | fuel + 1, st => do
    let (_, st1) ← expectT tokens .openParen st
    let (inner, st2) ← parse_expression tokens fuel st1
    let (_, st3) ← expectT tokens .closeParen st2
    .ok (inner, st3)

/-- `Parser::parse_expression`. -/
def parse_expression (tokens : List Token) : Nat → PState → Except RtErr (Expr × PState)
  | 0, _ => .error .fuelOut
  | fuel + 1, st => do
    let (lhs, st1) ← parse_primary_expression tokens fuel st
    parse_expression_precedence tokens fuel lhs 0 st1

/-- The outer `while` loop of `Parser::parse_expression_precedence`. -/
def parse_expression_precedence (tokens : List Token) :
    Nat → Expr → Nat → PState → Except RtErr (Expr × PState)
  | 0, _, _, _ => .error .fuelOut
  | fuel + 1, lhs, minPrecedence, st =>
    match peekT tokens st with
    | Option.none => .ok (lhs, st)
    | Option.some token =>
      match BinOp.fromToken token with
      | .error _ => .ok (lhs, st)
      | .ok op =>
        if op.precedence ≥ minPrecedence then do
          let st1 := bumpP st
          let (rhs0, st2) ← parse_primary_expression tokens fuel st1
          let (rhs, st3) ← parse_expression_precedence_inner tokens fuel op rhs0 st2
          parse_expression_precedence tokens fuel (.binaryOperation op lhs rhs) minPrecedence st3
        else .ok (lhs, st)

/-- The inner look-ahead `while` loop of `Parser::parse_expression_precedence`
(right-extension by strictly-higher-precedence operators). -/
def parse_expression_precedence_inner (tokens : List Token) :
    Nat → BinOp → Expr → PState → Except RtErr (Expr × PState)
  | 0, _, _, _ => .error .fuelOut
  | fuel + 1, op, rhs, st =>
    match peekT tokens st with
    | Option.none => .ok (rhs, st)
    | Option.some nextToken =>
      match BinOp.fromToken nextToken with
      | .error _ => .ok (rhs, st)
      | .ok nextOp =>
        if nextOp.precedence > op.precedence then do
          let (rhs', st1) ← parse_expression_precedence tokens fuel rhs nextOp.precedence st
          parse_expression_precedence_inner tokens fuel op rhs' st1
        else .ok (rhs, st)

/-- `Parser::parse_variable_declaration`. -/
def parse_variable_declaration (tokens : List Token) : Nat → PState → Except RtErr (Stmt × PState)
  | 0, _ => .error .fuelOut
  | fuel + 1, st => do
    let (varType, st1) ← parseTypeToken tokens st
    let (name, st2) ← parseNameToken tokens st1
    if peekT tokens st2 = Option.some .semicolon then
      .ok (.varDeclare name varType Option.none, bumpP st2)
    else do
      let (_, st3) ← expectT tokens (.operator "=") st2
      let (e, st4) ← parse_expression tokens fuel st3
      let (_, st5) ← expectT tokens .semicolon st4
      .ok (.varDeclare name varType (Option.some e), st5)

/-- `Parser::parse_if_else`.  Note the construction order: when an `else` block
is present, its `Scope` is built (and given its id) before the true block's
`Scope`, because the `false_statements` binding is evaluated before the
`Statement::If` struct expression that wraps the true block. -/
def parse_if_else (tokens : List Token) : Nat → PState → Except RtErr (Stmt × PState)
  | 0, _ => .error .fuelOut
  | fuel + 1, st => do
    let (_, st1) ← expectT tokens (.keyword "if") st
    let (_, st2) ← expectT tokens .openParen st1
    let (condition, st3) ← parse_expression tokens fuel st2
    let (_, st4) ← expectT tokens .closeParen st3
    let (trueStatements, st5) ← parse_brace_block tokens fuel st4
    if peekT tokens st5 = Option.some (.keyword "else") then do
      let (_, st6) ← expectT tokens (.keyword "else") st5
      let (falseStatements, st7) ← parse_brace_block tokens fuel st6
      let (falseScope, st8) := Scope.from_statements falseStatements st7
      let (trueScope, st9) := Scope.from_statements trueStatements st8
      .ok (.ifStmt condition trueScope (OptScope.some falseScope), st9)
    else
      let (trueScope, st6) := Scope.from_statements trueStatements st5
      .ok (.ifStmt condition trueScope OptScope.none, st6)

/-- `Parser::parse_statement`. -/
def parse_statement (tokens : List Token) : Nat → PState → Except RtErr (Stmt × PState)
  | 0, _ => .error .fuelOut
  | fuel + 1, st =>
    if peekT tokens st = Option.some (.keyword "return") then do
      let (e, st1) ← parse_expression tokens fuel (bumpP st)
      let (_, st2) ← expectT tokens .semicolon st1
      .ok (.ret e, st2)
    else if peekT tokens st = Option.some (.keyword "if") then parse_if_else tokens fuel st
    else if peekT tokens st = Option.some (.keyword "int") then
      parse_variable_declaration tokens fuel st
    else if peekT tokens st = Option.some (.keyword "char") then
      parse_variable_declaration tokens fuel st
    else if isIdentToken (peekT tokens st) && isIdentToken (tokens.get? (st.pos + 1)) then
      parse_variable_declaration tokens fuel st
    else if peekT tokens st = Option.none then .error (.err "End of input.")
    else do
      let (e, st1) ← parse_expression tokens fuel st
      let (_, st2) ← expectT tokens .semicolon st1
      .ok (.expression e, st2)

/-- `Parser::parse_brace_block`. -/
def parse_brace_block (tokens : List Token) : Nat → PState → Except RtErr (StmtList × PState)
  | 0, _ => .error .fuelOut
  | fuel + 1, st => do
    let (_, st1) ← expectT tokens .openBrace st
    let (stmts, st2) ← parse_brace_block_loop tokens fuel st1
    let (_, st3) ← expectT tokens .closeBrace st2
    .ok (stmts, st3)

/-- The `while self.peek() != Some(&CloseBrace)` loop of `parse_brace_block`. -/
def parse_brace_block_loop (tokens : List Token) : Nat → PState → Except RtErr (StmtList × PState)
  | 0, _ => .error .fuelOut
  | fuel + 1, st =>
    if peekT tokens st = Option.some .closeBrace then .ok (.nil, st)
    else do
      let (s, st1) ← parse_statement tokens fuel st
      let (rest, st2) ← parse_brace_block_loop tokens fuel st1
      .ok (.cons s rest, st2)
end

/-- `parse` from `parser.rs`.  The fixed `int main()` token header is computed
by tokenizing, exactly as the source does; prefix or trailing-brace mismatches
are `assert_eq!` panics. -/
def parse (fuel : Nat) (tokens : List Token) : Except RtErr (List Declaration) :=
  match tokenize "int main()" with
  | .error e => .error e
  | .ok header =>
    if tokens.length < header.length then
      .error (.panic "range end index out of range for slice")
    else if tokens.take header.length ≠ header then
      .error (.panic "assertion failed: tokens[..expected.len()] == expected")
    else
      match tokens.getLast? with
      | Option.none => .error (.panic "called Option::unwrap on a None value")
      | Option.some last =>
        if last ≠ Token.closeBrace then
          .error (.panic "assertion failed: *tokens.last().unwrap() == Token::CloseBrace")
        else
          match parse_brace_block (tokens.drop header.length) fuel { pos := 0, counter := 0 } with
          | .error e => .error e
          | .ok (body, st) =>
            let (scope, _) := Scope.from_statements body st
            .ok [Declaration.function "main" [] Ty.int scope]

/-- `SymbolTable` from `symbol_table.rs`: `vars` maps `(scope_id, var_name)` to
`VarInfo`, `scope_tree` maps a scope id to its parent scope id.  Both `HashMap`s
are association lists with the most recent insertion first. -/
structure SymbolTable where
  vars : List ((Nat × String) × VarInfo)
  scope_tree : List (Nat × Nat)
deriving DecidableEq, Repr

/-- `SymbolTable::new`. -/
def SymbolTable.new : SymbolTable := ⟨[], []⟩

/-- First-hit lookup in the `vars` map. -/
def lookupVars (vars : List ((Nat × String) × VarInfo)) (k : Nat × String) : Option VarInfo :=
  (vars.find? (fun p => p.1 = k)).map (fun p => p.2)

/-- First-hit lookup in the `scope_tree` map. -/
def lookupTree (tree : List (Nat × Nat)) (k : Nat) : Option Nat :=
  (tree.find? (fun p => p.1 = k)).map (fun p => p.2)

/-- The recursion of `SymbolTable::get` along the parent chain, with fuel.
Rust recurses without bound (and would diverge on a cyclic `scope_tree`, which
no reachable table has); on an acyclic chain the parent links strictly shorten
the remaining tree, so `scope_tree.length + 1` steps always suffice. -/
def SymbolTable.getF (t : SymbolTable) : Nat → Nat → String → Option VarInfo
  | 0, _, _ => Option.none
  | fuel + 1, scope_id, var_name =>
    match lookupVars t.vars (scope_id, var_name) with
    | Option.some var_info => Option.some var_info
    | Option.none =>
      match lookupTree t.scope_tree scope_id with
      | Option.some parent_scope => t.getF fuel parent_scope var_name
      | Option.none => Option.none

/-- `SymbolTable::get`. -/
def SymbolTable.get (t : SymbolTable) (scope_id : Nat) (var_name : String) : Option VarInfo :=
  t.getF (t.scope_tree.length + 1) scope_id var_name

/-- `SymbolTable::insert`. -/
def SymbolTable.insert (t : SymbolTable) (scope_id : Nat) (var_name : String)
    (var_info : VarInfo) : Except RtErr SymbolTable :=
  match t.get scope_id var_name with
  | Option.some _ =>
    .error (.err ("Duplicate insertion of variable " ++ var_name ++ " into scope "
      ++ toString scope_id ++ "."))
  | Option.none => .ok { t with vars := ((scope_id, var_name), var_info) :: t.vars }

/-- `SymbolTable::merge` followed by the `scope_tree.insert(child.id, parent_id)`
of `add_child_scope` (the only way `merge` is called). -/
def SymbolTable.mergeChild (t : SymbolTable) (parent_id child_id : Nat)
    (child_table : SymbolTable) : SymbolTable :=
  { vars := child_table.vars ++ t.vars,
    scope_tree := (child_id, parent_id) :: (child_table.scope_tree ++ t.scope_tree) }

-- `SymbolTable::from_scope` with its statement loop.  `add_child_scope` is
-- inlined at its two call sites; crucially, `from_scope` DROPS the `Result` of
-- `add_child_scope` (no `?` in the Rust source), so a failing child scope
-- leaves the table unchanged and construction continues.
mutual
/-- `SymbolTable::from_scope`. -/
def SymbolTable.from_scope : Scope → Except RtErr SymbolTable
  | .mk sid stmts => SymbolTable.fromScopeLoop sid stmts SymbolTable.new

/-- The `for s in statements` loop of `from_scope`. -/
def SymbolTable.fromScopeLoop (sid : Nat) : StmtList → SymbolTable → Except RtErr SymbolTable
  | .nil, table => .ok table
  | .cons s rest, table =>
    match s with
    | .varDeclare name var_type _ =>
      match table.insert sid name ⟨name, var_type⟩ with
      | .error e => .error e
      | .ok table1 => SymbolTable.fromScopeLoop sid rest table1
    | .ifStmt _ true_block false_block =>
      let table1 :=
        match SymbolTable.from_scope true_block with
        | .ok child_table => table.mergeChild sid true_block.id child_table
        | .error _ => table
      let table2 :=
        match false_block with
        | .some false_scope =>
          match SymbolTable.from_scope false_scope with
          | .ok child_table => table1.mergeChild sid false_scope.id child_table
          | .error _ => table1
        | .none => table1
      SymbolTable.fromScopeLoop sid rest table2
    | _ => SymbolTable.fromScopeLoop sid rest table
end

/-- `SymbolTable::from_function`. -/
def SymbolTable.from_function (dec : Declaration) : Except RtErr SymbolTable :=
  SymbolTable.from_scope dec.scope

/-- `check_scope_expr` from `symantic_check.rs`. -/
def check_scope_expr (expr : Expr) (scope_id : Nat) (symbol_table : SymbolTable) :
    Except RtErr Unit :=
  match expr with
  | .binaryOperation _ left right =>
    match check_scope_expr left scope_id symbol_table with
    | .error e => .error e
    | .ok _ => check_scope_expr right scope_id symbol_table
  | .variable var_name =>
    match symbol_table.get scope_id var_name with
    | Option.none =>
      .error (.err ("Undefined variable " ++ var_name ++ " in scope " ++ toString scope_id))
    | Option.some _ => .ok ()
  | _ => .ok ()

-- `check_scope` from `symantic_check.rs`, with its statement loop.
mutual
/-- `check_scope` from `symantic_check.rs`. -/
def check_scope : Scope → SymbolTable → Except RtErr Unit
  | .mk sid stmts, symbol_table => checkScopeLoop sid stmts symbol_table

/-- The `for s in scope.statements` loop of `check_scope`. -/
def checkScopeLoop (sid : Nat) : StmtList → SymbolTable → Except RtErr Unit
  | .nil, _ => .ok ()
  | .cons s rest, symbol_table =>
    match s with
    | .ret e =>
      match check_scope_expr e sid symbol_table with
      | .error er => .error er
      | .ok _ => checkScopeLoop sid rest symbol_table
    | .expression e =>
      match check_scope_expr e sid symbol_table with
      | .error er => .error er
      | .ok _ => checkScopeLoop sid rest symbol_table
    | .varDeclare _ _ (Option.some e) =>
      match check_scope_expr e sid symbol_table with
      | .error er => .error er
      | .ok _ => checkScopeLoop sid rest symbol_table
    | .ifStmt condition true_block false_block =>
      match check_scope_expr condition sid symbol_table with
      | .error er => .error er
      | .ok _ =>
        match check_scope true_block symbol_table with
        | .error er => .error er
        | .ok _ =>
          match
            (match false_block with
            | .some false_scope => check_scope false_scope symbol_table
            | .none => .ok ())
          with
          | .error er => .error er
          | .ok _ => checkScopeLoop sid rest symbol_table
    | _ => checkScopeLoop sid rest symbol_table
end

/-- `check_syntax` from `symantic_check.rs`. -/
def check_syntax (declarations : List Declaration) : Except RtErr SymbolTable :=
  match declarations with
  | [d] =>
    match SymbolTable.from_function d with
    | .error e => .error e
    | .ok symbol_table =>
      match check_scope d.scope symbol_table with
      | .error e => .error e
      | .ok _ => .ok symbol_table
  | _ => .error (.panic "assertion failed: declarations.len() == 1")

/-- `BinOp` from `cfg.rs` (distinct from the AST `BinOp`). -/
inductive CfgBinOp where
  | add | sub | mul | div
deriving DecidableEq, Repr

/-- `Statement` from `cfg.rs` (three-address code). -/
inductive CfgStmt where
  | goto (target : Nat)
  | assign (var : String) (value : Nat)
  | operation (dest : String) (op : CfgBinOp) (lhs : String) (rhs : String)
  | ret (var : String)
deriving DecidableEq, Repr

/-- `CFGBuildContext` from `cfg.rs`. -/
structure CFGBuildContext where
  var_counter : Nat
  var_map : List (String × String)
deriving DecidableEq, Repr

/-- `CFGBuildContext::new`. -/
def CFGBuildContext.new : CFGBuildContext := ⟨0, []⟩

/-- `CFGBuildContext::inc`: bump the counter and return the fresh `v{n}` name
together with the updated context. -/
def CFGBuildContext.inc (c : CFGBuildContext) : String × CFGBuildContext :=
  ("v" ++ toString (c.var_counter + 1), { c with var_counter := c.var_counter + 1 })

/-- `CFGBuildContext::register_var`. -/
def CFGBuildContext.register_var (c : CFGBuildContext) (var : String) : CFGBuildContext :=
  let (a, c1) := c.inc
  { c1 with var_map := (var, a) :: c1.var_map }

/-- `CFGBuildContext::lookup`. -/
def CFGBuildContext.lookup (c : CFGBuildContext) (var : String) : Option String :=
  (c.var_map.find? (fun p => p.1 = var)).map (fun p => p.2)

/-- `ControlFlowGraph` from `cfg.rs`: `HashMap<ControlBlockId, ControlBlock>`,
as an association list (the code only ever builds the singleton `{0 ↦ block}`). -/
abbrev ControlFlowGraph := List (Nat × List CfgStmt)

/-- `ControlFlowGraph::process_var_declare`. -/
def cfg_process_var_declare (stmt : Stmt) (context : CFGBuildContext) :
    Except RtErr (List CfgStmt × CFGBuildContext) :=
  match stmt with
  | .varDeclare name var_type value =>
    if var_type ≠ Ty.int then .error (.panic "assertion failed: var_type == &ast::Type::Int")
    else
      let context1 := context.register_var name
      match context1.lookup name with
      | Option.none => .error (.panic "")
      | Option.some cfg_var_name =>
        match value.getD (Expr.intLiteral 0) with
        | .intLiteral v => .ok ([.assign cfg_var_name v], context1)
        | _ => .error (.err ("Expected an IntLiteral, but got " ++ debugOptionExpr value))
  | _ => .error (.err ("Expected a VarDeclare, but got " ++ debugStmt stmt))

/-- `ControlFlowGraph::process_return`. -/
def cfg_process_return (stmt : Stmt) (context : CFGBuildContext) :
    Except RtErr (List CfgStmt × CFGBuildContext) :=
  match stmt with
  | .ret expr =>
    match expr with
    | .intLiteral i =>
      let (cfg_var_name, context1) := context.inc
      .ok ([.assign cfg_var_name i, .ret cfg_var_name], context1)
    | .variable var_name =>
      match context.lookup var_name with
      | Option.some cfg_var_name => .ok ([.ret cfg_var_name], context)
      | Option.none => .error (.panic "")
    | _ => .error (.err "")
  | _ => .error (.err "")

/-- `ControlFlowGraph::process`: dispatch on the statement kind; everything but
a variable declaration or a return is `Err("Not Implemented")`. -/
def cfg_process (stmt : Stmt) (context : CFGBuildContext) :
    Except RtErr (List CfgStmt × CFGBuildContext) :=
  match stmt with
  | .varDeclare _ _ _ => cfg_process_var_declare stmt context
  | .ret _ => cfg_process_return stmt context
  | _ => .error (.err "Not Implemented")

/-- `Result::expect(msg)`: unwrap an `Ok`, turn an `Err(e)` into a panic whose
message is `msg` followed by the `Debug` rendering of `e`. -/
def expectResult (msg : String) : Except RtErr α → Except RtErr α
  | .ok a => .ok a
  | .error (.err e) => .error (.panic (msg ++ ": " ++ debugStr e))
  | .error e => .error e

/-- The statement loop of `ControlFlowGraph::from`: process each statement and
append, unwrapping each per-statement `Result` with `.expect("")` (a panic, not
a returned error, on failure). -/
def cfgFromLoop : StmtList → CFGBuildContext → Except RtErr (List CfgStmt)
  | .nil, _ => .ok []
  | .cons s rest, context =>
    match expectResult "" (cfg_process s context) with
    | .error e => .error e
    | .ok (stmts, context1) =>
      match cfgFromLoop rest context1 with
      | .error e => .error e
      | .ok rest_stmts => .ok (stmts ++ rest_stmts)

/-- `ControlFlowGraph::from`: assert the single validated `main` shape, then
lower the top-level statements into the single block 0. -/
def cfg_from (declarations : List Declaration) : Except RtErr ControlFlowGraph :=
  match declarations with
  | [Declaration.function name args return_type scope] =>
    if name ≠ "main" then .error (.panic "assertion failed: name == main")
    else if args.length ≠ 0 then .error (.panic "assertion failed: args.len() == 0")
    else if return_type ≠ Ty.int then
      .error (.panic "assertion failed: return_type == ast::Type::Int")
    else
      match cfgFromLoop scope.statements CFGBuildContext.new with
      | .error e => .error e
      | .ok block => .ok [(0, block)]
  | _ => .error (.panic "assertion failed: declarations.len() == 1")

/-- `RegisterGP` from `codegen.rs`. -/
inductive RegisterGP where
  | rbx | rcx | rdx | r8 | r9 | r10 | r11 | r12 | r13 | r14 | r15
deriving DecidableEq, Repr

/-- `impl fmt::Display for RegisterGP` from `codegen.rs`.  The match lists every
register except `R8`, which falls into the catch-all `_ => ""` arm and renders
as the empty string. -/
def RegisterGP.display : RegisterGP → String
  | .rbx => "rbx"
  | .rcx => "rcx"
  | .rdx => "rdx"
  | .r9 => "r9"
  | .r10 => "r10"
  | .r11 => "r11"
  | .r12 => "r12"
  | .r13 => "r13"
  | .r14 => "r14"
  | .r15 => "r15"
  | _ => ""

/-- `ASM_HEADER` from `codegen.rs`. -/
def ASM_HEADER : List String := [".global main", "main:"]

/-- `var_to_reg` from `codegen.rs`: the fixed five-entry binding table. -/
def var_to_reg (var : String) : Except RtErr RegisterGP :=
  if var = "v1" then .ok .rbx
  else if var = "v2" then .ok .rcx
  else if var = "v3" then .ok .rdx
  else if var = "v4" then .ok .r8
  else if var = "v5" then .ok .r9
  else .error (.err ("Could not map var " ++ var))

/-- `assign_to_asm` from `codegen.rs`. -/
def assign_to_asm (var : String) (value : Nat) : Except RtErr (List String) :=
  match var_to_reg var with
  | .error e => .error e
  | .ok r => .ok ["mov $" ++ toString value ++ ", %" ++ r.display]

/-- `return_to_asm` from `codegen.rs`. -/
def return_to_asm (var : String) : Except RtErr (List String) :=
  match var_to_reg var with
  | .error e => .error e
  | .ok r => .ok ["mov %" ++ r.display ++ ", %rax"]

/-- The per-statement loop of `cfg_to_asm`. -/
def cfgToAsmLoop : List CfgStmt → Except RtErr (List String)
  | [] => .ok []
  | s :: rest =>
    let statement_asm : Except RtErr (List String) :=
      match s with
      | .assign var value => assign_to_asm var value
      | .ret var => return_to_asm var
      | _ => .error (.err "")
    match statement_asm with
    | .error e => .error e
    | .ok lines =>
      match cfgToAsmLoop rest with
      | .error e => .error e
      | .ok rest_lines => .ok (lines ++ rest_lines)

/-- `cfg_to_asm` from `codegen.rs`. -/
def cfg_to_asm (cfg : ControlFlowGraph) : Except RtErr (List String) :=
  if cfg.length ≠ 1 then .error (.panic "assertion failed: cfg.len() == 1")
  else
    match cfg.find? (fun p => p.1 = 0) with
    | Option.none => .error (.panic "assertion failed: cfg.contains_key(&0)")
    | Option.some p =>
      match cfgToAsmLoop p.2 with
      | .error e => .error e
      | .ok lines => .ok (ASM_HEADER ++ lines)

-- ======================================================================
-- Specification-side helpers (defined over the embedded AST, used to state
-- the claims; they do not correspond to Rust functions).
-- ======================================================================

-- All scope ids occurring in a statement tree (a scope's own id first).
mutual
/-- Scope ids of a scope tree: its own id followed by all nested ids. -/
def Scope.allIds : Scope → List Nat
  | .mk i stmts => i :: stmts.allIds

/-- Scope ids nested anywhere in a statement list. -/
def StmtList.allIds : StmtList → List Nat
  | .nil => []
  | .cons s rest => s.allIds ++ rest.allIds

/-- Scope ids nested anywhere in a statement (only `If` carries scopes). -/
def Stmt.allIds : Stmt → List Nat
  | .ifStmt _ tb fb => tb.allIds ++ fb.allIds
  | _ => []

/-- Scope ids of an optional scope. -/
def OptScope.allIds : OptScope → List Nat
  | .none => []
  | .some s => s.allIds
end

-- Post-order numbering: every scope's id strictly exceeds every scope id
-- nested within it, recursively at every level.
mutual
/-- Post-order check for a scope: all nested ids are below its own, and the
nested statements are themselves post-ordered. -/
def Scope.postOrdered : Scope → Bool
  | .mk i stmts => stmts.allIds.all (fun j => j < i) && stmts.postOrdered

/-- Post-order check for every statement of a list. -/
def StmtList.postOrdered : StmtList → Bool
  | .nil => true
  | .cons s rest => s.postOrdered && rest.postOrdered

/-- Post-order check for the scopes of one statement. -/
def Stmt.postOrdered : Stmt → Bool
  | .ifStmt _ tb fb => tb.postOrdered && fb.postOrdered
  | _ => true

/-- Post-order check for an optional scope. -/
def OptScope.postOrdered : OptScope → Bool
  | .none => true
  | .some s => s.postOrdered
end

/-- The claim's adjacency property at a single `If` statement: a false block's
id is one more than the true block's. -/
def ifFalseIdAdjacent : Stmt → Bool
  | .ifStmt _ tb (.some fb) => fb.id = tb.id + 1
  | _ => true

/-- The statement kinds `ControlFlowGraph::process` does not support (everything
other than a variable declaration or a return). -/
def stmtUnsupported : Stmt → Bool
  | .expression _ => true
  | .ifStmt _ _ _ => true
  | _ => false

/-- The semantic checker's error message for an unresolved variable. -/
def undefMsg (var_name : String) (scope_id : Nat) : String :=
  "Undefined variable " ++ var_name ++ " in scope " ++ toString scope_id

/-- The symbol table's duplicate-insertion error message. -/
def dupMsg (var_name : String) (scope_id : Nat) : String :=
  "Duplicate insertion of variable " ++ var_name ++ " into scope " ++ toString scope_id ++ "."

/-- Variable references of an expression, paired with the scope id they are
referenced from. -/
def exprVarRefs (scope_id : Nat) : Expr → List (String × Nat)
  | .variable n => [(n, scope_id)]
  | .binaryOperation _ l r => exprVarRefs scope_id l ++ exprVarRefs scope_id r
  | _ => []

-- Variable references of a statement tree, in the traversal order of
-- `check_scope` (return operands, bare expressions, declaration initializers,
-- if conditions, then both branches recursively).
mutual
/-- Variable references occurring anywhere in a scope. -/
def scopeVarRefs : Scope → List (String × Nat)
  | .mk sid stmts => stmtsVarRefs sid stmts

/-- Variable references of a statement list (at scope id `sid`). -/
def stmtsVarRefs (sid : Nat) : StmtList → List (String × Nat)
  | .nil => []
  | .cons s rest => stmtVarRefs sid s ++ stmtsVarRefs sid rest

/-- Variable references of one statement (at scope id `sid`). -/
def stmtVarRefs (sid : Nat) : Stmt → List (String × Nat)
  | .ret e => exprVarRefs sid e
  | .expression e => exprVarRefs sid e
  | .varDeclare _ _ (Option.some e) => exprVarRefs sid e
  | .varDeclare _ _ Option.none => []
  | .ifStmt c tb fb => exprVarRefs sid c ++ scopeVarRefs tb ++ optScopeVarRefs fb

/-- Variable references of an optional scope. -/
def optScopeVarRefs : OptScope → List (String × Nat)
  | .none => []
  | .some s => scopeVarRefs s
end

/-- References of an expression that do NOT resolve through `SymbolTable.get`,
in checker order. -/
def exprUnresolved (t : SymbolTable) (scope_id : Nat) : Expr → List (String × Nat)
  | .variable n =>
    match t.get scope_id n with
    | Option.none => [(n, scope_id)]
    | Option.some _ => []
  | .binaryOperation _ l r => exprUnresolved t scope_id l ++ exprUnresolved t scope_id r
  | _ => []

-- Unresolved references of a statement tree, in checker order.
mutual
/-- Unresolved references anywhere in a scope. -/
def scopeUnresolved (t : SymbolTable) : Scope → List (String × Nat)
  | .mk sid stmts => stmtsUnresolved t sid stmts

/-- Unresolved references of a statement list (at scope id `sid`). -/
def stmtsUnresolved (t : SymbolTable) (sid : Nat) : StmtList → List (String × Nat)
  | .nil => []
  | .cons s rest => stmtUnresolved t sid s ++ stmtsUnresolved t sid rest

/-- Unresolved references of one statement (at scope id `sid`). -/
def stmtUnresolved (t : SymbolTable) (sid : Nat) : Stmt → List (String × Nat)
  | .ret e => exprUnresolved t sid e
  | .expression e => exprUnresolved t sid e
  | .varDeclare _ _ (Option.some e) => exprUnresolved t sid e
  | .varDeclare _ _ Option.none => []
  | .ifStmt c tb fb => exprUnresolved t sid c ++ scopeUnresolved t tb ++ optScopeUnresolved t fb

/-- Unresolved references of an optional scope. -/
def optScopeUnresolved (t : SymbolTable) : OptScope → List (String × Nat)
  | .none => []
  | .some s => scopeUnresolved t s
end

/-- First variable name declared twice directly in a statement list (the names
`seen` so far accumulate left to right). -/
def firstDupFrom (seen : List String) : StmtList → Option String
  | .nil => Option.none
  | .cons (.varDeclare n _ _) rest =>
    if n ∈ seen then Option.some n else firstDupFrom (n :: seen) rest
  | .cons _ rest => firstDupFrom seen rest

-- ======================================================================
-- Concrete programs used by the claims.
-- ======================================================================

/-- AST of `int main() { int x = 123; return x; }` as produced by the parser. -/
def returnDecls : List Declaration :=
  [.function "main" [] Ty.int (.mk 1
    (.cons (.varDeclare "x" Ty.int (Option.some (.intLiteral 123)))
    (.cons (.ret (.variable "x")) .nil)))]

/-- AST of `int main() { int x = 0; if(x){ return 1; }else{ return 0; }}` as
produced by the parser (a validated program whose body contains an `if`). -/
def ifElseDecls : List Declaration :=
  [.function "main" [] Ty.int (.mk 3
    (.cons (.varDeclare "x" Ty.int (Option.some (.intLiteral 0)))
    (.cons (.ifStmt (.variable "x")
      (.mk 2 (.cons (.ret (.intLiteral 1)) .nil))
      (.some (.mk 1 (.cons (.ret (.intLiteral 0)) .nil)))) .nil)))]

/-- The token sequence of `int main() { x = 1 + 2 * 3; }` as the parser tests
construct it (the `*` operator token the tokenizer cannot produce). -/
def starTokensA : List Token :=
  [.keyword "int", .identifier "main", .openParen, .closeParen, .openBrace,
   .identifier "x", .operator "=", .integerLiteral 1, .operator "+", .integerLiteral 2,
   .operator "*", .integerLiteral 3, .semicolon, .closeBrace]

/-- The token sequence of `int main() { x = 1 * 2 + 3; }`. -/
def starTokensB : List Token :=
  [.keyword "int", .identifier "main", .openParen, .closeParen, .openBrace,
   .identifier "x", .operator "=", .integerLiteral 1, .operator "*", .integerLiteral 2,
   .operator "+", .integerLiteral 3, .semicolon, .closeBrace]

/-- Function body `{ int x; int x; }`: two declarations of `x` directly in the
top-level scope, and no variable references anywhere. -/
def dupTopDecl : Declaration :=
  .function "main" [] Ty.int (.mk 1
    (.cons (.varDeclare "x" Ty.int Option.none)
    (.cons (.varDeclare "x" Ty.int Option.none) .nil)))

/-- A function whose nested if-branch scope (id 1) declares `x` twice; the
top-level scope (id 2) declares nothing. -/
def nestedDupDecl : Declaration :=
  .function "main" [] Ty.int (.mk 2
    (.cons (.ifStmt (.intLiteral 1)
      (.mk 1 (.cons (.varDeclare "x" Ty.int Option.none)
              (.cons (.varDeclare "x" Ty.int Option.none) .nil)))
      .none) .nil))

/-- The token sequence of the body `if(x){ return 1; }else{ return 0; }`. -/
def ifElseBodyToks : List Token :=
  [.keyword "if", .openParen, .identifier "x", .closeParen,
   .openBrace, .keyword "return", .integerLiteral 1, .semicolon, .closeBrace,
   .keyword "else", .openBrace, .keyword "return", .integerLiteral 0, .semicolon, .closeBrace]

/-- The tokenizer's position-carrying error message. -/
def tokErrMsg (p : Nat) (c : Char) : String :=
  "Tokenization error at position " ++ toString p ++ " character " ++ String.mk [c]

/-- The tokenizer's unterminated-string panic message (no position). -/
def tokMissingQuoteMsg : String :=
  "Tokenization Error: String Literal: missing matching quote."

/-- The checker outcome determined by a list of unresolved references: success
iff the list is empty, else the error for its first element. -/
def unresolvedResult : List (String × Nat) → Except RtErr Unit
  | [] => .ok ()
  | (n, i) :: _ => .error (.err (undefMsg n i))

/-- `check_syntax`'s outcome determined by the symbol table and the unresolved
references of the function body. -/
def checkResult (table : SymbolTable) : List (String × Nat) → Except RtErr SymbolTable
  | [] => .ok table
  | (n, i) :: _ => .error (.err (undefMsg n i))

/-- A main function whose body `{ return x; }` references an undeclared `x`. -/
def unresolvedRefDecl : Declaration :=
  .function "main" [] Ty.int (.mk 1 (.cons (.ret (.variable "x")) .nil))

/-- Invariant of the `from_scope` statement fold at scope `sid`: the names
declared so far (`seen`) are exactly the `vars` keys at scope id `sid`, and
`sid` has no parent link, so `get sid name` sees exactly the seen names. -/
def TableInv (sid : Nat) (table : SymbolTable) (seen : List String) : Prop :=
  (∀ name, lookupVars table.vars (sid, name) = Option.none ↔ name ∉ seen) ∧
  lookupTree table.scope_tree sid = Option.none

/-- A body declaring `x` at top level and again inside a nested if-branch scope
(shadowing, no duplicate in any single scope). -/
def shadowStmts : StmtList :=
  .cons (.varDeclare "x" Ty.int Option.none)
    (.cons (.ifStmt (.intLiteral 1)
      (.mk 2 (.cons (.varDeclare "x" Ty.int Option.none) .nil)) .none) .nil)

/-- Range/shape invariant of a parsed statement: between counters `lo` and
`hi`, every scope id the statement carries lies in `(lo, hi]`, the statement's
scopes are post-ordered, and its scope ids are distinct. -/
def StmtOut (lo : Nat) (s : Stmt) (hi : Nat) : Prop :=
  lo ≤ hi ∧ (∀ i ∈ s.allIds, lo < i ∧ i ≤ hi) ∧ s.postOrdered = true ∧ s.allIds.Nodup

/-- The same invariant for a parsed statement list. -/
def StmtsOut (lo : Nat) (l : StmtList) (hi : Nat) : Prop :=
  lo ≤ hi ∧ (∀ i ∈ l.allIds, lo < i ∧ i ≤ hi) ∧ l.postOrdered = true ∧ l.allIds.Nodup

/-- Tokens of `int main() { if(x){ return 1; }else{ return 0; }}`. -/
def ifOnlyToks : List Token :=
  [.keyword "int", .identifier "main", .openParen, .closeParen, .openBrace,
   .keyword "if", .openParen, .identifier "x", .closeParen, .openBrace,
   .keyword "return", .integerLiteral 1, .semicolon, .closeBrace,
   .keyword "else", .openBrace, .keyword "return", .integerLiteral 0, .semicolon,
   .closeBrace, .closeBrace]

/-- The parsed `main` declaration of that program: true branch id 2, false
branch id 1, enclosing function scope id 3. -/
def ifOnlyDecl : Declaration :=
  .function "main" [] Ty.int (.mk 3
    (.cons (.ifStmt (.variable "x")
      (.mk 2 (.cons (.ret (.intLiteral 1)) .nil))
      (.some (.mk 1 (.cons (.ret (.intLiteral 0)) .nil)))) .nil))

-- ======================================================================
-- Claim theorems: concrete evaluations.
-- ======================================================================

set_option maxHeartbeats 2000000

/-- C1: on `int main() { int x = 123; return x; }` the full pipeline succeeds;
the CFG is exactly one block with id 0 holding `Assign(v1,123); Return(v1)` (the
return of the variable generates no new temporary), and the emitted assembly is
exactly the four claimed lines. -/
theorem end_to_end_return_variable :
    (tokenize "int main() { int x = 123; return x; }").bind (parse 99) = .ok returnDecls ∧
    ( check_syntax returnDecls).isOk = true ∧
    cfg_from returnDecls = .ok [(0, [.assign "v1" 123, .ret "v1"])] ∧
    (cfg_from returnDecls).bind cfg_to_asm =
      .ok [".global main", "main:", "mov $123, %rbx", "mov %rbx, %rax"] :=
  ⟨rfl, rfl, rfl, rfl⟩

/-- C4 (code bug): the pipeline cannot even tokenize `int main() { x = 1 + 2 * 3; }`
or `int main() { x = 1 * 2 + 3; }` — `OPERATORS` lacks `*`, so `tokenize` returns
an error at the `*` — while the parser itself, fed the token sequences the
repository's own `test_precedence` builds, produces exactly the claimed
`Add(1, Mul(2,3))` and `Add(Mul(1,2), 3)` right-hand sides. -/
theorem tokenize_rejects_star_pipeline :
    tokenize "int main() { x = 1 + 2 * 3; }" =
      .error (.err "Tokenization error at position 23 character *") ∧
    tokenize "int main() { x = 1 * 2 + 3; }" =
      .error (.err "Tokenization error at position 19 character *") ∧
    parse 99 starTokensA = .ok [.function "main" [] Ty.int (.mk 1
      (.cons (.expression (.binaryOperation .assign (.variable "x")
        (.binaryOperation .add (.intLiteral 1)
          (.binaryOperation .mul (.intLiteral 2) (.intLiteral 3))))) .nil))] ∧
    parse 99 starTokensB = .ok [.function "main" [] Ty.int (.mk 1
      (.cons (.expression (.binaryOperation .assign (.variable "x")
        (.binaryOperation .add
          (.binaryOperation .mul (.intLiteral 1) (.intLiteral 2))
          (.intLiteral 3)))) .nil))] :=
  ⟨rfl, rfl, rfl, rfl⟩

/-- C5 (counterexample): a parsed and validated `main` whose body contains an
`if` does not get a returned lowering error from `ControlFlowGraph::from` — the
`.expect("")` inside `from` turns `Err("Not Implemented")` into a panic. -/
theorem cfg_from_panics_on_if :
    (tokenize "int main() { int x = 0; if(x){ return 1; }else{ return 0; }}").bind (parse 99) =
      .ok ifElseDecls ∧
    ( check_syntax ifElseDecls).isOk = true ∧
    cfg_from ifElseDecls = .error (.panic ": \"Not Implemented\"") :=
  ⟨rfl, rfl, rfl⟩

/-- C6 (counterexample): on an input with an unterminated string literal,
`tokenize` does not return a position-carrying error value — it panics with a
fixed message carrying no source position. -/
theorem tokenize_unterminated_string_panics :
    tokenize "\"abc" =
      .error (.panic "Tokenization Error: String Literal: missing matching quote.") :=
  rfl

/-- C7 (code bug): `v4` is in the binding table and maps to `R8`, but the
`Display` implementation's match omits `R8` (catch-all `""`), so codegen
succeeds while emitting `mov` lines with an empty register name — not
syntactically valid assembler input.  Names outside the table do fail with the
"could not map" error. -/
theorem codegen_v4_empty_register :
    var_to_reg "v4" = .ok RegisterGP.r8 ∧
    RegisterGP.display RegisterGP.r8 = "" ∧
    cfg_to_asm [(0, [.assign "v4" 5, .ret "v4"])] =
      .ok [".global main", "main:", "mov $5, %", "mov %, %rax"] ∧
    cfg_to_asm [(0, [.assign "v6" 5])] = .error (.err "Could not map var v6") :=
  ⟨rfl, rfl, rfl, rfl⟩

/-- C8 (counterexample): a scope (the if-branch scope, id 1) contains two
declarations of `x` under the same scope id, yet symbol-table construction
succeeds — `from_scope` drops the `Result` of `add_child_scope`, so the failing
child table is silently discarded (the table comes back empty). -/
theorem from_function_swallows_nested_duplicate :
    firstDupFrom [] ((Scope.mk 1 (.cons (.varDeclare "x" Ty.int Option.none)
      (.cons (.varDeclare "x" Ty.int Option.none) .nil))).statements) = Option.some "x" ∧
    SymbolTable.from_function nestedDupDecl = .ok SymbolTable.new :=
  ⟨rfl, rfl⟩

/-- C9 (counterexample): the parsed program `int main() { int x; int x; }`
contains no variable references at all — so every reference (vacuously)
resolves — yet semantic checking does not succeed: it fails with the symbol
table's duplicate-insertion error. -/
theorem check_syntax_fails_without_unresolved_reference :
    (tokenize "int main() { int x; int x; }").bind (parse 99) = .ok [dupTopDecl] ∧
    scopeVarRefs dupTopDecl.scope = [] ∧
    check_syntax [dupTopDecl] = .error (.err "Duplicate insertion of variable x into scope 1.") :=
  ⟨rfl, rfl, rfl⟩

/-- C3 (counterexample): parsing `int main() { if(x){ return 1; }else{ return 0; }}`
produces an `If` whose true block has id 2 and false block id 1; the claimed
`false_block.id = true_block.id + 1` is false at this statement. -/
theorem if_else_false_id_not_adjacent :
    (tokenize "int main() { if(x){ return 1; }else{ return 0; }}").bind (parse 99) =
      .ok [.function "main" [] Ty.int (.mk 3
        (.cons (.ifStmt (.variable "x")
          (.mk 2 (.cons (.ret (.intLiteral 1)) .nil))
          (.some (.mk 1 (.cons (.ret (.intLiteral 0)) .nil)))) .nil))] ∧
    ifFalseIdAdjacent (.ifStmt (.variable "x")
      (.mk 2 (.cons (.ret (.intLiteral 1)) .nil))
      (.some (.mk 1 (.cons (.ret (.intLiteral 0)) .nil)))) = false :=
  ⟨rfl, rfl⟩

/-- C10: lowering an `int` declaration without initializer emits exactly one
instruction, assigning the literal 0 to the freshly generated CFG name
`v{counter+1}` (recorded in the variable map) — identical to an explicit
`= 0` initializer. -/
theorem var_declare_without_initializer_zero (name : String) (context : CFGBuildContext) :
    cfg_process (.varDeclare name Ty.int Option.none) context =
      .ok ([CfgStmt.assign ("v" ++ toString (context.var_counter + 1)) 0],
        { var_counter := context.var_counter + 1,
          var_map := (name, "v" ++ toString (context.var_counter + 1)) :: context.var_map }) ∧
    cfg_process (.varDeclare name Ty.int Option.none) context =
      cfg_process (.varDeclare name Ty.int (Option.some (.intLiteral 0))) context := by
  constructor <;>
    simp [cfg_process, cfg_process_var_declare, CFGBuildContext.register_var,
      CFGBuildContext.inc, CFGBuildContext.lookup, List.find?]

/-- C5 (amended): the per-statement lowering `ControlFlowGraph::process` does
return the descriptive error — `Err("Not Implemented")` — for every statement
that is neither a variable declaration nor a return (in particular every `if`
statement and every bare expression statement); it is `ControlFlowGraph::from`
that unwraps this `Result` with `.expect("")` and panics instead of returning it. -/
theorem process_not_implemented_on_other (s : Stmt) (context : CFGBuildContext)
    (h : stmtUnsupported s = true) :
    cfg_process s context = .error (.err "Not Implemented") := by
  cases s <;> simp_all [stmtUnsupported, cfg_process]

/-- Witness for `process_not_implemented_on_other` at an `if` statement. -/
theorem process_not_implemented_on_other_witness :
    stmtUnsupported (.ifStmt (.intLiteral 1) (.mk 1 .nil) .none) = true ∧
    cfg_process (.ifStmt (.intLiteral 1) (.mk 1 .nil) .none) CFGBuildContext.new =
      .error (.err "Not Implemented") :=
  ⟨rfl, process_not_implemented_on_other _ _ rfl⟩

/-- Inversion for a successful `Except` bind (shared helper). -/
theorem exceptBindOk {α β ε : Type} {x : Except ε α} {f : α → Except ε β} {b : β}
    (h : x >>= f = .ok b) : ∃ a, x = .ok a ∧ f a = .ok b := by
  cases x with
  | error e => exact absurd h (by simp [Bind.bind, Except.bind])
  | ok a => exact ⟨a, rfl, by simpa [Bind.bind, Except.bind] using h⟩

/-- C3 (amended): whenever `parse_if_else` succeeds with a false block, it is
the TRUE block whose id is one more than the false block's (the else block's
`Scope` is built first), and the parser state's counter afterwards equals the
true block's id — so the enclosing scope, stamped later from a
monotonically-increased counter, receives a strictly larger id only after both
branches are finished. -/
theorem if_else_true_block_id_succ (tokens : List Token) (fuel : Nat) (st : PState)
    (cond : Expr) (tb fb : Scope) (st' : PState)
    (h : parse_if_else tokens fuel st = .ok (.ifStmt cond tb (.some fb), st')) :
    tb.id = fb.id + 1 ∧ st'.counter = tb.id := by
  cases fuel with
  | zero => simp [parse_if_else] at h
  | succ n =>
    rw [parse_if_else] at h
    obtain ⟨⟨t1, st1⟩, he1, h⟩ := exceptBindOk h
    obtain ⟨⟨t2, st2⟩, he2, h⟩ := exceptBindOk h
    obtain ⟨⟨c3, st3⟩, he3, h⟩ := exceptBindOk h
    obtain ⟨⟨t4, st4⟩, he4, h⟩ := exceptBindOk h
    obtain ⟨⟨ts5, st5⟩, he5, h⟩ := exceptBindOk h
    simp only [Scope.from_statements] at h
    split at h
    · obtain ⟨⟨t6, st6⟩, he6, h⟩ := exceptBindOk h
      obtain ⟨⟨fs7, st7⟩, he7, h⟩ := exceptBindOk h
      simp only [Scope.from_statements] at h
      simp only [Except.ok.injEq, Prod.mk.injEq, Stmt.ifStmt.injEq, OptScope.some.injEq] at h
      obtain ⟨⟨hc, htb, hfb⟩, hst⟩ := h
      subst htb hfb hst
      simp [Scope.id]
    · simp only [Except.ok.injEq, Prod.mk.injEq, Stmt.ifStmt.injEq] at h
      exact absurd h.1.2.2 (by intro hx; cases hx)


/-- Witness for `if_else_true_block_id_succ` on the concrete if/else body. -/
theorem if_else_true_block_id_succ_witness :
    (Scope.mk 2 (.cons (.ret (.intLiteral 1)) .nil)).id =
      (Scope.mk 1 (.cons (.ret (.intLiteral 0)) .nil)).id + 1 ∧
    (PState.mk 15 2).counter = (Scope.mk 2 (.cons (.ret (.intLiteral 1)) .nil)).id :=
  if_else_true_block_id_succ ifElseBodyToks 99 ⟨0, 0⟩ (.variable "x")
    (Scope.mk 2 (.cons (.ret (.intLiteral 1)) .nil))
    (Scope.mk 1 (.cons (.ret (.intLiteral 0)) .nil)) ⟨15, 2⟩ rfl

/-- Shape of `tokenize_operator` on nonempty input: a token consuming at least
one character, or a recoverable non-match (never a panic). -/
theorem tokenize_operator_cases (s : List Char) (hs : s.length ≠ 0) :
    (∃ t n, tokenize_operator s = .ok t n ∧ 1 ≤ n) ∨ tokenize_operator s = .noMatch := by
  rw [tokenize_operator, if_neg hs]
  by_cases hany : (OPERATORS.any (fun op => op.data = s.take (opLoop s (s.length + 1) 0))) = true
  · left
    refine ⟨_, _, by rw [if_pos hany], ?_⟩
    simp only [List.any_eq_true, decide_eq_true_eq] at hany
    obtain ⟨op, hop, heq⟩ := hany
    rw [← heq]
    have hne : ∀ op ∈ OPERATORS, 1 ≤ op.data.length := by decide
    exact hne op hop
  · right
    rw [if_neg hany]

/-- Shape of `tokenize_string_literal` on nonempty input: a token consuming at
least one character, a non-match, or the fixed missing-quote panic. -/
theorem tokenize_string_literal_cases (s : List Char) (hs : s.length ≠ 0) :
    (∃ t n, tokenize_string_literal s = .ok t n ∧ 1 ≤ n) ∨
    tokenize_string_literal s = .noMatch ∨
    tokenize_string_literal s = .panic tokMissingQuoteMsg := by
  rw [tokenize_string_literal, if_neg hs]
  by_cases hq : s.head? ≠ some '"'
  · right; left; rw [if_pos hq]
  · rw [if_neg hq]
    cases hfind : (s.drop 1).findIdx? (fun c => c = '"') with
    | none => right; right; rfl
    | some idx => left; exact ⟨_, _, rfl, by omega⟩

/-- Shape of `tokenize_keywords_integers_ids` on nonempty input: a token
consuming at least one character, or a non-match (never a panic). -/
theorem tokenize_keywords_cases (s : List Char) (hs : s.length ≠ 0) :
    (∃ t n, tokenize_keywords_integers_ids s = .ok t n ∧ 1 ≤ n) ∨
    tokenize_keywords_integers_ids s = .noMatch := by
  rw [tokenize_keywords_integers_ids, if_neg hs]
  by_cases hsub : (s.takeWhile isWordChar).length = 0
  · right; rw [if_pos hsub]
  · rw [if_neg hsub]
    by_cases hkw : (KEYWORDS.any (fun k => k.data = s.takeWhile isWordChar)) = true
    · left; rw [if_pos hkw]; exact ⟨_, _, rfl, by omega⟩
    · rw [if_neg hkw]
      cases hp : parseU64 (s.takeWhile isWordChar) with
      | some v => left; exact ⟨_, _, rfl, by omega⟩
      | none => left; exact ⟨_, _, rfl, by omega⟩

/-- Shape of one classification step of `tokenize` (at a position inside the
input): a token consuming at least one character, the position-carrying error,
or the missing-quote panic. -/
theorem tokenizeStep_cases (s : List Char) (ptr : Nat) (c : Char) (hlt : ptr < s.length) :
    (∃ t n, tokenizeStep s ptr c = .ok (t, n) ∧ 1 ≤ n) ∨
    tokenizeStep s ptr c = .error (.err (tokErrMsg ptr c)) ∨
    tokenizeStep s ptr c = .error (.panic tokMissingQuoteMsg) := by
  have hd : (s.drop ptr).length ≠ 0 := by
    rw [List.length_drop]; omega
  rw [tokenizeStep]
  by_cases h1 : c = '('
  · left; exact ⟨_, _, by rw [if_pos h1], by omega⟩
  rw [if_neg h1]
  by_cases h2 : c = ')'
  · left; exact ⟨_, _, by rw [if_pos h2], by omega⟩
  rw [if_neg h2]
  by_cases h3 : c = openBraceChar
  · left; exact ⟨_, _, by rw [if_pos h3], by omega⟩
  rw [if_neg h3]
  by_cases h4 : c = closeBraceChar
  · left; exact ⟨_, _, by rw [if_pos h4], by omega⟩
  rw [if_neg h4]
  by_cases h5 : c = ';'
  · left; exact ⟨_, _, by rw [if_pos h5], by omega⟩
  rw [if_neg h5]
  rcases tokenize_operator_cases (s.drop ptr) hd with ⟨t, n, hok, hn⟩ | hnm
  · rw [hok]; left; exact ⟨t, n, rfl, hn⟩
  rw [hnm]
  rcases tokenize_string_literal_cases (s.drop ptr) hd with ⟨t, n, hok, hn⟩ | hnm2 | hpanic
  · rw [hok]; left; exact ⟨t, n, rfl, hn⟩
  · rw [hnm2]
    rcases tokenize_keywords_cases (s.drop ptr) hd with ⟨t, n, hok, hn⟩ | hnm3
    · rw [hok]; left; exact ⟨t, n, rfl, hn⟩
    · rw [hnm3]; right; left; rfl
  · rw [hpanic]; right; right; rfl

/-- Outcomes of the tokenizer loop under sufficient fuel (each iteration
consumes at least one character, so `s.length - ptr < fuel` is preserved):
a token list, a position-carrying error, or the missing-quote panic —
in particular, never fuel exhaustion. -/
theorem tokenizeF_cases (s : List Char) :
    ∀ fuel ptr, s.length - ptr < fuel →
    (∃ ts, tokenizeF s fuel ptr = .ok ts) ∨
    (∃ p c, tokenizeF s fuel ptr = .error (.err (tokErrMsg p c))) ∨
    tokenizeF s fuel ptr = .error (.panic tokMissingQuoteMsg) := by
  intro fuel
  induction fuel with
  | zero => intro ptr h; omega
  | succ n ih =>
    intro ptr hfuel
    rw [tokenizeF]
    by_cases hlt : ptr < s.length
    · rw [dif_pos hlt]
      by_cases hws : (s.get ⟨ptr, hlt⟩).isWhitespace = true
      · rw [if_pos hws]
        exact ih (ptr + 1) (by omega)
      · rw [if_neg hws]
        rcases tokenizeStep_cases s ptr (s.get ⟨ptr, hlt⟩) hlt with ⟨t, m, hok, hm⟩ | herr | hpanic
        · rw [hok]
          dsimp only
          rcases ih (ptr + m) (by omega) with ⟨ts, hts⟩ | ⟨p, c, hpc⟩ | hp
          · rw [hts]; left; exact ⟨t :: ts, rfl⟩
          · rw [hpc]; right; left; exact ⟨p, c, rfl⟩
          · rw [hp]; right; right; rfl
        · rw [herr]; right; left; exact ⟨ptr, _, rfl⟩
        · rw [hpanic]; right; right; rfl
    · rw [dif_neg hlt]; left; exact ⟨[], rfl⟩

/-- C6 (amended): for every input text, `tokenize` returns an ordered token
sequence, or a returned tokenization error naming the offending position and
character — except that an unterminated string literal instead causes a panic
with a fixed message carrying no source position. -/
theorem tokenize_trichotomy (s : String) :
    (∃ ts, tokenize s = .ok ts) ∨
    (∃ p c, tokenize s = .error (.err (tokErrMsg p c))) ∨
    tokenize s = .error (.panic tokMissingQuoteMsg) :=
  tokenizeF_cases s.data (s.data.length + 1) 0 (by omega)

/-- The error-propagating sequencing of the checker agrees with appending
unresolved-reference lists. -/
theorem unresolvedResult_append (a b : List (String × Nat)) :
    unresolvedResult (a ++ b) =
      match unresolvedResult a with
      | .error e => .error e
      | .ok _ => unresolvedResult b := by
  cases a with
  | nil => rfl
  | cons p rest => cases p; rfl

/-- `check_scope_expr` succeeds iff the expression has no unresolved reference,
and otherwise fails on the first one. -/
theorem check_scope_expr_eq (t : SymbolTable) (sid : Nat) (e : Expr) :
    check_scope_expr e sid t = unresolvedResult (exprUnresolved t sid e) := by
  induction e with
  | intLiteral n => rfl
  | stringLiteral s => rfl
  | «variable» n =>
    simp only [check_scope_expr, exprUnresolved]
    cases t.get sid n <;> rfl
  | binaryOperation op l r ihl ihr =>
    simp only [check_scope_expr, exprUnresolved, unresolvedResult_append, ihl, ihr]

/-- `check_scope` (and its statement loop) succeeds iff the scope has no
unresolved reference, and otherwise fails on the first one in traversal order
(size-indexed induction over the mutual scope/statement structure). -/
theorem checker_mirror (k : Nat) (t : SymbolTable) :
    (∀ s : Scope, sizeOf s ≤ k → check_scope s t = unresolvedResult (scopeUnresolved t s)) ∧
    (∀ sid (l : StmtList), sizeOf l ≤ k →
      checkScopeLoop sid l t = unresolvedResult (stmtsUnresolved t sid l)) := by
  induction k with
  | zero =>
    constructor
    · intro s hs; cases s; simp [Scope.mk.sizeOf_spec] at hs
    · intro sid l hl; cases l
      · rfl
      · simp [StmtList.cons.sizeOf_spec] at hl
  | succ n ih =>
    constructor
    · intro s hs
      cases s with
      | mk sid stmts =>
        have h := ih.2 sid stmts (by simp [Scope.mk.sizeOf_spec] at hs; omega)
        rw [check_scope, scopeUnresolved]
        exact h
    · intro sid l hl
      cases l with
      | nil => rfl
      | cons s rest =>
        have hsz : sizeOf rest ≤ n := by simp [StmtList.cons.sizeOf_spec] at hl; omega
        have hrest := ih.2 sid rest hsz
        cases s with
        | ret e =>
          simp only [checkScopeLoop, stmtsUnresolved, stmtUnresolved, unresolvedResult_append,
            check_scope_expr_eq, hrest]
        | expression e =>
          simp only [checkScopeLoop, stmtsUnresolved, stmtUnresolved, unresolvedResult_append,
            check_scope_expr_eq, hrest]
        | varDeclare nm ty v =>
          cases v with
          | none =>
            simp only [checkScopeLoop, stmtsUnresolved, stmtUnresolved, List.nil_append, hrest]
          | some e =>
            simp only [checkScopeLoop, stmtsUnresolved, stmtUnresolved, unresolvedResult_append,
              check_scope_expr_eq, hrest]
        | ifStmt c tb fb =>
          have htbsz : sizeOf tb ≤ n := by
            simp [StmtList.cons.sizeOf_spec, Stmt.ifStmt.sizeOf_spec] at hl; omega
          have htb := ih.1 tb htbsz
          cases fb with
          | none =>
            simp only [checkScopeLoop, stmtsUnresolved, stmtUnresolved, optScopeUnresolved]
            rw [check_scope_expr_eq, htb, hrest]
            cases exprUnresolved t sid c with
            | cons p r => cases p; simp [unresolvedResult]
            | nil =>
              cases scopeUnresolved t tb with
              | cons p r => cases p; simp [unresolvedResult]
              | nil => simp [unresolvedResult]
          | some fs =>
            have hfs : sizeOf fs ≤ n := by
              simp [StmtList.cons.sizeOf_spec, Stmt.ifStmt.sizeOf_spec,
                OptScope.some.sizeOf_spec] at hl; omega
            have hfb := ih.1 fs hfs
            simp only [checkScopeLoop, stmtsUnresolved, stmtUnresolved, optScopeUnresolved]
            rw [check_scope_expr_eq, htb, hfb, hrest]
            cases exprUnresolved t sid c with
            | cons p r => cases p; simp [unresolvedResult]
            | nil =>
              cases scopeUnresolved t tb with
              | cons p r => cases p; simp [unresolvedResult]
              | nil =>
                cases scopeUnresolved t fs with
                | cons p r => cases p; simp [unresolvedResult]
                | nil => simp [unresolvedResult]

/-- C9 (amended): provided symbol-table construction succeeds, semantic
checking of `[d]` succeeds (returning that table) exactly when every variable
reference — in return operands, bare expressions, declaration initializers,
if conditions, and recursively in both if branches — resolves via
`SymbolTable.get` from its referencing scope; otherwise it fails on the first
unresolved reference, naming the variable and the scope it was referenced
from. -/
theorem check_syntax_first_unresolved (d : Declaration) (table : SymbolTable)
    (h : SymbolTable.from_function d = .ok table) :
    ( check_syntax [d] = .ok table ↔ scopeUnresolved table d.scope = []) ∧
    (∀ n i rest, scopeUnresolved table d.scope = (n, i) :: rest →
      check_syntax [d] = .error (.err (undefMsg n i))) := by
  have hcs : check_scope d.scope table = unresolvedResult (scopeUnresolved table d.scope) :=
    (checker_mirror (sizeOf d.scope) table).1 d.scope le_rfl
  have hmain : check_syntax [d] = checkResult table (scopeUnresolved table d.scope) := by
    simp only [ check_syntax, h, hcs]
    cases scopeUnresolved table d.scope with
    | nil => rfl
    | cons p r => cases p; rfl
  constructor
  · rw [hmain]
    cases scopeUnresolved table d.scope with
    | nil => simp [checkResult]
    | cons p r => cases p; simp [checkResult]
  · intro n i rest hu
    rw [hmain, hu]
    rfl

/-- Witness for `check_syntax_first_unresolved` on `int main() { return x; }`
(empty symbol table, one unresolved reference). -/
theorem check_syntax_first_unresolved_witness :
    ( check_syntax [unresolvedRefDecl] = .ok SymbolTable.new ↔
      scopeUnresolved SymbolTable.new unresolvedRefDecl.scope = []) ∧
    (∀ n i rest, scopeUnresolved SymbolTable.new unresolvedRefDecl.scope = (n, i) :: rest →
      check_syntax [unresolvedRefDecl] = .error (.err (undefMsg n i))) :=
  check_syntax_first_unresolved unresolvedRefDecl SymbolTable.new rfl
/-- Lookup in the `vars` association list after one insertion. -/
theorem lookupVars_cons (k : Nat × String) (vi : VarInfo)
    (vs : List ((Nat × String) × VarInfo)) (q : Nat × String) :
    lookupVars ((k, vi) :: vs) q = if k = q then Option.some vi else lookupVars vs q := by
  simp only [lookupVars, List.find?]
  by_cases h : k = q
  · simp [h]
  · simp [h]

/-- Entries whose scope id differs from `sid` never shadow a `(sid, _)` lookup. -/
theorem lookupVars_append_ne (ct vs : List ((Nat × String) × VarInfo)) (sid : Nat) (name : String)
    (h : ∀ e ∈ ct, e.1.1 ≠ sid) :
    lookupVars (ct ++ vs) (sid, name) = lookupVars vs (sid, name) := by
  induction ct with
  | nil => rfl
  | cons e rest ih =>
    obtain ⟨⟨i, n⟩, vi⟩ := e
    rw [List.cons_append, lookupVars_cons]
    have hne : (i, n) ≠ (sid, name) := by
      have := h ((i, n), vi) (List.mem_cons_self _ _)
      simp at this
      simp [this]
    rw [if_neg hne]
    exact ih (fun e he => h e (List.mem_cons_of_mem _ he))

/-- Lookup in the `scope_tree` association list after one insertion. -/
theorem lookupTree_cons (a b : Nat) (tr : List (Nat × Nat)) (q : Nat) :
    lookupTree ((a, b) :: tr) q = if a = q then Option.some b else lookupTree tr q := by
  simp only [lookupTree, List.find?]
  by_cases h : a = q
  · simp [h]
  · simp [h]

/-- Tree entries with keys other than `sid` never shadow a `sid` lookup. -/
theorem lookupTree_append_ne (ct tr : List (Nat × Nat)) (sid : Nat)
    (h : ∀ e ∈ ct, e.1 ≠ sid) :
    lookupTree (ct ++ tr) sid = lookupTree tr sid := by
  induction ct with
  | nil => rfl
  | cons e rest ih =>
    obtain ⟨a, b⟩ := e
    rw [List.cons_append, lookupTree_cons]
    have hne : a ≠ sid := by
      have := h (a, b) (List.mem_cons_self _ _)
      simpa using this
    rw [if_neg hne]
    exact ih (fun e he => h e (List.mem_cons_of_mem _ he))

/-- Under the fold invariant, `get sid name` resolves exactly the seen names. -/
theorem get_of_inv {sid : Nat} {table : SymbolTable} {seen : List String}
    (hinv : TableInv sid table seen) (name : String) :
    (table.get sid name = Option.none ↔ name ∉ seen) := by
  rw [SymbolTable.get, SymbolTable.getF]
  cases hv : lookupVars table.vars (sid, name) with
  | none =>
    rw [hinv.2]
    simpa using (hinv.1 name).mp hv
  | some vi =>
    simp only []
    constructor
    · intro h; cases h
    · intro hns
      exact absurd ((hinv.1 name).mpr hns) (by rw [hv]; simp)

/-- Inserting an already-seen name fails with the duplicate message. -/
theorem insert_dup {sid : Nat} {table : SymbolTable} {seen : List String}
    (hinv : TableInv sid table seen) (name : String) (vi : VarInfo) (hmem : name ∈ seen) :
    table.insert sid name vi = .error (.err (dupMsg name sid)) := by
  rw [SymbolTable.insert]
  have : ¬table.get sid name = Option.none := fun h => (get_of_inv hinv name).mp h hmem
  cases hg : table.get sid name with
  | none => exact absurd hg this
  | some v => rfl

/-- Inserting a fresh name succeeds and preserves the fold invariant. -/
theorem insert_fresh {sid : Nat} {table : SymbolTable} {seen : List String}
    (hinv : TableInv sid table seen) (name : String) (vi : VarInfo) (hmem : name ∉ seen) :
    table.insert sid name vi =
      .ok { table with vars := ((sid, name), vi) :: table.vars } ∧
    TableInv sid { table with vars := ((sid, name), vi) :: table.vars } (name :: seen) := by
  have hg : table.get sid name = Option.none := (get_of_inv hinv name).mpr hmem
  constructor
  · rw [SymbolTable.insert, hg]
  · constructor
    · intro m
      rw [lookupVars_cons]
      by_cases hm : (sid, name) = (sid, m)
      · simp at hm
        subst hm
        simp
      · rw [if_neg hm]
        rw [hinv.1 m]
        have : m ≠ name := fun h => hm (by rw [h])
        simp [this]
    · exact hinv.2

/-- Merging a child table whose keys avoid `sid` preserves the fold invariant. -/
theorem mergeChild_inv {sid : Nat} {table : SymbolTable} {seen : List String}
    (hinv : TableInv sid table seen) (cid : Nat) (ct : SymbolTable)
    (hcv : ∀ e ∈ ct.vars, e.1.1 ≠ sid) (hct : ∀ e ∈ ct.scope_tree, e.1 ≠ sid)
    (hcid : cid ≠ sid) :
    TableInv sid (table.mergeChild sid cid ct) seen := by
  constructor
  · intro name
    rw [SymbolTable.mergeChild]
    simp only []
    rw [lookupVars_append_ne ct.vars table.vars sid name hcv]
    exact hinv.1 name
  · rw [SymbolTable.mergeChild]
    simp only []
    rw [lookupTree_cons, if_neg hcid, lookupTree_append_ne ct.scope_tree table.scope_tree sid hct]
    exact hinv.2

/-- A successful insert conses exactly the new binding. -/
theorem insert_ok_shape {table : SymbolTable} {sid : Nat} {name : String} {vi : VarInfo}
    {t1 : SymbolTable} (h : table.insert sid name vi = .ok t1) :
    t1 = { table with vars := ((sid, name), vi) :: table.vars } := by
  rw [SymbolTable.insert] at h
  cases hg : table.get sid name with
  | none => rw [hg] at h; cases h; rfl
  | some v => rw [hg] at h; cases h

/-- A scope id occurs among its own tree ids. -/
theorem scope_id_mem_allIds (s : Scope) : s.id ∈ s.allIds := by
  cases s; simp [Scope.id, Scope.allIds]

/-- Membership in a merged table decomposes into child, link, and base parts. -/
theorem mergeChild_mem (ta ct : SymbolTable) (sid cid : Nat) :
    (∀ e ∈ (ta.mergeChild sid cid ct).vars, e ∈ ct.vars ∨ e ∈ ta.vars) ∧
    (∀ e ∈ (ta.mergeChild sid cid ct).scope_tree,
      e = (cid, sid) ∨ e ∈ ct.scope_tree ∨ e ∈ ta.scope_tree) := by
  constructor
  · intro e he
    rw [SymbolTable.mergeChild] at he
    simpa using he
  · intro e he
    rw [SymbolTable.mergeChild] at he
    simpa using he

/-- Every `vars` key and `scope_tree` key of a constructed symbol table is a
scope id of the scope tree it was built from (size-indexed induction). -/
theorem table_keys (k : Nat) :
    (∀ s : Scope, sizeOf s ≤ k → ∀ t, SymbolTable.from_scope s = .ok t →
      (∀ e ∈ t.vars, e.1.1 ∈ s.allIds) ∧ (∀ e ∈ t.scope_tree, e.1 ∈ s.allIds)) ∧
    (∀ sid (l : StmtList), sizeOf l ≤ k → ∀ t0 t, SymbolTable.fromScopeLoop sid l t0 = .ok t →
      (∀ e ∈ t.vars, e.1.1 = sid ∨ e.1.1 ∈ l.allIds ∨ e ∈ t0.vars) ∧
      (∀ e ∈ t.scope_tree, e.1 ∈ l.allIds ∨ e ∈ t0.scope_tree)) := by
  induction k with
  | zero =>
    constructor
    · intro s hs; cases s; simp [Scope.mk.sizeOf_spec] at hs
    · intro sid l hl
      cases l with
      | nil =>
        intro t0 t h
        simp only [SymbolTable.fromScopeLoop] at h
        cases h
        exact ⟨fun e he => Or.inr (Or.inr he), fun e he => Or.inr he⟩
      | cons s rest => simp [StmtList.cons.sizeOf_spec] at hl
  | succ n ih =>
    have sub_if_tb : ∀ (c : Expr) (tb : Scope) (fb : OptScope) (rest : StmtList) (i : Nat),
        i ∈ tb.allIds → i ∈ (StmtList.cons (Stmt.ifStmt c tb fb) rest).allIds := by
      intro c tb fb rest i hi
      simp [StmtList.allIds, Stmt.allIds, List.mem_append]
      tauto
    have sub_if_fb : ∀ (c : Expr) (tb : Scope) (fb : OptScope) (rest : StmtList) (i : Nat),
        i ∈ fb.allIds → i ∈ (StmtList.cons (Stmt.ifStmt c tb fb) rest).allIds := by
      intro c tb fb rest i hi
      simp [StmtList.allIds, Stmt.allIds, List.mem_append]
      tauto
    have sub_if_rest : ∀ (c : Expr) (tb : Scope) (fb : OptScope) (rest : StmtList) (i : Nat),
        i ∈ rest.allIds → i ∈ (StmtList.cons (Stmt.ifStmt c tb fb) rest).allIds := by
      intro c tb fb rest i hi
      simp [StmtList.allIds, Stmt.allIds, List.mem_append]
      tauto
    constructor
    · intro s hs t h
      cases s with
      | mk sid stmts =>
        rw [SymbolTable.from_scope] at h
        have hk := ih.2 sid stmts (by simp [Scope.mk.sizeOf_spec] at hs; omega) SymbolTable.new t h
        constructor
        · intro e he
          rcases hk.1 e he with h1 | h1 | h1
          · simp [Scope.allIds, h1]
          · simp [Scope.allIds]; exact Or.inr h1
          · simp [SymbolTable.new] at h1
        · intro e he
          rcases hk.2 e he with h1 | h1
          · simp [Scope.allIds]; exact Or.inr h1
          · simp [SymbolTable.new] at h1
    · intro sid l hl t0 t h
      cases l with
      | nil =>
        simp only [SymbolTable.fromScopeLoop] at h
        cases h
        exact ⟨fun e he => Or.inr (Or.inr he), fun e he => Or.inr he⟩
      | cons s rest =>
        have hsz : sizeOf rest ≤ n := by simp [StmtList.cons.sizeOf_spec] at hl; omega
        have compose : ∀ (c : Expr) (tb : Scope) (fb : OptScope) (T : SymbolTable),
            (∀ e ∈ T.vars,
              e.1.1 ∈ (StmtList.cons (Stmt.ifStmt c tb fb) rest).allIds ∨ e ∈ t0.vars) →
            (∀ e ∈ T.scope_tree,
              e.1 ∈ (StmtList.cons (Stmt.ifStmt c tb fb) rest).allIds ∨ e ∈ t0.scope_tree) →
            SymbolTable.fromScopeLoop sid rest T = .ok t →
            (∀ e ∈ t.vars, e.1.1 = sid ∨
              e.1.1 ∈ (StmtList.cons (Stmt.ifStmt c tb fb) rest).allIds ∨ e ∈ t0.vars) ∧
            (∀ e ∈ t.scope_tree,
              e.1 ∈ (StmtList.cons (Stmt.ifStmt c tb fb) rest).allIds ∨ e ∈ t0.scope_tree) := by
          intro c tb fb T hTv hTt hloop
          have hk := ih.2 sid rest hsz T t hloop
          constructor
          · intro e he
            rcases hk.1 e he with h1 | h1 | h1
            · exact Or.inl h1
            · exact Or.inr (Or.inl (sub_if_rest c tb fb rest _ h1))
            · exact Or.inr (hTv e h1)
          · intro e he
            rcases hk.2 e he with h1 | h1
            · exact Or.inl (sub_if_rest c tb fb rest _ h1)
            · exact hTt e h1
        cases s with
        | ret e0 =>
          simp only [SymbolTable.fromScopeLoop] at h
          have hk := ih.2 sid rest hsz t0 t h
          refine ⟨fun e he => ?_, fun e he => ?_⟩
          · rcases hk.1 e he with h1 | h1 | h1
            · exact Or.inl h1
            · exact Or.inr (Or.inl (by simpa [StmtList.allIds, Stmt.allIds] using h1))
            · exact Or.inr (Or.inr h1)
          · rcases hk.2 e he with h1 | h1
            · exact Or.inl (by simpa [StmtList.allIds, Stmt.allIds] using h1)
            · exact Or.inr h1
        | expression e0 =>
          simp only [SymbolTable.fromScopeLoop] at h
          have hk := ih.2 sid rest hsz t0 t h
          refine ⟨fun e he => ?_, fun e he => ?_⟩
          · rcases hk.1 e he with h1 | h1 | h1
            · exact Or.inl h1
            · exact Or.inr (Or.inl (by simpa [StmtList.allIds, Stmt.allIds] using h1))
            · exact Or.inr (Or.inr h1)
          · rcases hk.2 e he with h1 | h1
            · exact Or.inl (by simpa [StmtList.allIds, Stmt.allIds] using h1)
            · exact Or.inr h1
        | varDeclare nm ty v =>
          simp only [SymbolTable.fromScopeLoop] at h
          revert h
          cases hins : t0.insert sid nm ⟨nm, ty⟩ with
          | error e1 =>
            intro h
            exact absurd h (by simp)
          | ok t1 =>
            intro h
            have hsh := insert_ok_shape hins
            subst hsh
            have hk := ih.2 sid rest hsz _ t h
            refine ⟨fun e he => ?_, fun e he => ?_⟩
            · rcases hk.1 e he with h1 | h1 | h1
              · exact Or.inl h1
              · exact Or.inr (Or.inl (by simpa [StmtList.allIds, Stmt.allIds] using h1))
              · simp only [List.mem_cons] at h1
                rcases h1 with h1 | h1
                · subst h1; exact Or.inl rfl
                · exact Or.inr (Or.inr h1)
            · rcases hk.2 e he with h1 | h1
              · exact Or.inl (by simpa [StmtList.allIds, Stmt.allIds] using h1)
              · exact Or.inr h1
        | ifStmt c tb fb =>
          have htbsz : sizeOf tb ≤ n := by
            simp [StmtList.cons.sizeOf_spec, Stmt.ifStmt.sizeOf_spec] at hl; omega
          cases fb with
          | none =>
            simp only [SymbolTable.fromScopeLoop] at h
            revert h
            cases htb : SymbolTable.from_scope tb with
            | error e1 =>
              intro h
              exact compose c tb OptScope.none t0
                (fun e he => Or.inr he) (fun e he => Or.inr he) h
            | ok ct =>
              intro h
              have hkt := ih.1 tb htbsz ct htb
              have hm1 := mergeChild_mem t0 ct sid tb.id
              refine compose c tb OptScope.none _ ?_ ?_ h
              · intro e he
                rcases hm1.1 e he with h1 | h1
                · exact Or.inl (sub_if_tb c tb OptScope.none rest _ (hkt.1 e h1))
                · exact Or.inr h1
              · intro e he
                rcases hm1.2 e he with h1 | h1 | h1
                · subst h1
                  exact Or.inl (sub_if_tb c tb OptScope.none rest _ (scope_id_mem_allIds tb))
                · exact Or.inl (sub_if_tb c tb OptScope.none rest _ (hkt.2 e h1))
                · exact Or.inr h1
          | some fs =>
            have hfssz : sizeOf fs ≤ n := by
              simp [StmtList.cons.sizeOf_spec, Stmt.ifStmt.sizeOf_spec,
                OptScope.some.sizeOf_spec] at hl; omega
            simp only [SymbolTable.fromScopeLoop] at h
            revert h
            cases htb : SymbolTable.from_scope tb with
            | error e1 =>
              cases hfs : SymbolTable.from_scope fs with
              | error e2 =>
                intro h
                exact compose c tb (OptScope.some fs) t0
                  (fun e he => Or.inr he) (fun e he => Or.inr he) h
              | ok cf =>
                intro h
                have hkf := ih.1 fs hfssz cf hfs
                have hm := mergeChild_mem t0 cf sid fs.id
                refine compose c tb (OptScope.some fs) _ ?_ ?_ h
                · intro e he
                  rcases hm.1 e he with h1 | h1
                  · exact Or.inl (sub_if_fb c tb (OptScope.some fs) rest _
                      (by simpa [OptScope.allIds] using hkf.1 e h1))
                  · exact Or.inr h1
                · intro e he
                  rcases hm.2 e he with h1 | h1 | h1
                  · subst h1
                    exact Or.inl (sub_if_fb c tb (OptScope.some fs) rest _
                      (by simpa [OptScope.allIds] using scope_id_mem_allIds fs))
                  · exact Or.inl (sub_if_fb c tb (OptScope.some fs) rest _
                      (by simpa [OptScope.allIds] using hkf.2 e h1))
                  · exact Or.inr h1
            | ok ct =>
              have hkt := ih.1 tb htbsz ct htb
              have hm1 := mergeChild_mem t0 ct sid tb.id
              have hT1v : ∀ e ∈ (t0.mergeChild sid tb.id ct).vars,
                  e.1.1 ∈ (StmtList.cons (Stmt.ifStmt c tb (OptScope.some fs)) rest).allIds ∨
                    e ∈ t0.vars := by
                intro e he
                rcases hm1.1 e he with h1 | h1
                · exact Or.inl (sub_if_tb c tb (OptScope.some fs) rest _ (hkt.1 e h1))
                · exact Or.inr h1
              have hT1t : ∀ e ∈ (t0.mergeChild sid tb.id ct).scope_tree,
                  e.1 ∈ (StmtList.cons (Stmt.ifStmt c tb (OptScope.some fs)) rest).allIds ∨
                    e ∈ t0.scope_tree := by
                intro e he
                rcases hm1.2 e he with h1 | h1 | h1
                · subst h1
                  exact Or.inl (sub_if_tb c tb (OptScope.some fs) rest _ (scope_id_mem_allIds tb))
                · exact Or.inl (sub_if_tb c tb (OptScope.some fs) rest _ (hkt.2 e h1))
                · exact Or.inr h1
              cases hfs : SymbolTable.from_scope fs with
              | error e2 =>
                intro h
                exact compose c tb (OptScope.some fs) _ hT1v hT1t h
              | ok cf =>
                intro h
                have hkf := ih.1 fs hfssz cf hfs
                have hm2 := mergeChild_mem (t0.mergeChild sid tb.id ct) cf sid fs.id
                refine compose c tb (OptScope.some fs) _ ?_ ?_ h
                · intro e he
                  rcases hm2.1 e he with h1 | h1
                  · exact Or.inl (sub_if_fb c tb (OptScope.some fs) rest _
                      (by simpa [OptScope.allIds] using hkf.1 e h1))
                  · exact hT1v e h1
                · intro e he
                  rcases hm2.2 e he with h1 | h1 | h1
                  · subst h1
                    exact Or.inl (sub_if_fb c tb (OptScope.some fs) rest _
                      (by simpa [OptScope.allIds] using scope_id_mem_allIds fs))
                  · exact Or.inl (sub_if_fb c tb (OptScope.some fs) rest _
                      (by simpa [OptScope.allIds] using hkf.2 e h1))
                  · exact hT1t e h1

/-- The `from_scope` statement fold, started in a state satisfying the fold
invariant at a scope id fresh for the statements: it succeeds exactly when no
name is declared twice directly in the list, and otherwise fails with the
duplicate-insertion message for the first such name.  Duplicates inside nested
if-branch scopes never surface (`add_child_scope`'s `Result` is dropped). -/
theorem fromScopeLoop_dup (k : Nat) :
    ∀ (l : StmtList), sizeOf l ≤ k → ∀ (sid : Nat) (seen : List String) (table : SymbolTable),
      TableInv sid table seen → sid ∉ l.allIds →
      ((firstDupFrom seen l = Option.none →
          ∃ t, SymbolTable.fromScopeLoop sid l table = .ok t) ∧
       (∀ n1, firstDupFrom seen l = Option.some n1 →
          SymbolTable.fromScopeLoop sid l table = .error (.err (dupMsg n1 sid)))) := by
  induction k with
  | zero =>
    intro l hl
    cases l with
    | nil =>
      intro sid seen table hinv hfresh
      constructor
      · intro _; exact ⟨table, rfl⟩
      · intro n1 hn1; simp [firstDupFrom] at hn1
    | cons s rest => simp [StmtList.cons.sizeOf_spec] at hl
  | succ n ih =>
    intro l hl
    cases l with
    | nil =>
      intro sid seen table hinv hfresh
      constructor
      · intro _; exact ⟨table, rfl⟩
      · intro n1 hn1; simp [firstDupFrom] at hn1
    | cons s rest =>
      intro sid seen table hinv hfresh
      have hszrest : sizeOf rest ≤ n := by simp [StmtList.cons.sizeOf_spec] at hl; omega
      have hfrest : sid ∉ rest.allIds := by
        intro hx
        exact hfresh (by simp [StmtList.allIds, List.mem_append]; tauto)
      cases s with
      | ret e0 =>
        simp only [SymbolTable.fromScopeLoop, firstDupFrom]
        exact ih rest hszrest sid seen table hinv hfrest
      | expression e0 =>
        simp only [SymbolTable.fromScopeLoop, firstDupFrom]
        exact ih rest hszrest sid seen table hinv hfrest
      | varDeclare nm ty v =>
        by_cases hn : nm ∈ seen
        · constructor
          · intro hfd
            rw [firstDupFrom, if_pos hn] at hfd
            cases hfd
          · intro n1 hn1
            rw [firstDupFrom, if_pos hn] at hn1
            cases hn1
            simp only [SymbolTable.fromScopeLoop]
            rw [insert_dup hinv nm ⟨nm, ty⟩ hn]
        · have hins := insert_fresh hinv nm ⟨nm, ty⟩ hn
          have hrec := ih rest hszrest sid (nm :: seen) _ hins.2 hfrest
          constructor
          · intro hfd
            rw [firstDupFrom, if_neg hn] at hfd
            obtain ⟨t, ht⟩ := hrec.1 hfd
            refine ⟨t, ?_⟩
            simp only [SymbolTable.fromScopeLoop]
            rw [hins.1]
            exact ht
          · intro n1 hn1
            rw [firstDupFrom, if_neg hn] at hn1
            simp only [SymbolTable.fromScopeLoop]
            rw [hins.1]
            exact hrec.2 n1 hn1
      | ifStmt c tb fb =>
        have hsid_tb : sid ∉ tb.allIds := by
          intro hx
          exact hfresh (by simp [StmtList.allIds, Stmt.allIds, List.mem_append]; tauto)
        have hinv1 : ∀ T : SymbolTable,
            (match SymbolTable.from_scope tb with
             | .ok child_table => table.mergeChild sid tb.id child_table
             | .error _ => table) = T → TableInv sid T seen := by
          intro T hT
          cases htb : SymbolTable.from_scope tb with
          | error e1 => rw [htb] at hT; subst hT; exact hinv
          | ok ct =>
            rw [htb] at hT
            subst hT
            have hkt := (table_keys (sizeOf tb)).1 tb le_rfl ct htb
            exact mergeChild_inv hinv tb.id ct
              (fun e he heq => hsid_tb (heq ▸ hkt.1 e he))
              (fun e he heq => hsid_tb (heq ▸ hkt.2 e he))
              (fun heq => hsid_tb (heq ▸ scope_id_mem_allIds tb))
        cases fb with
        | none =>
          simp only [SymbolTable.fromScopeLoop, firstDupFrom]
          revert hinv1
          cases htb : SymbolTable.from_scope tb with
          | error e1 =>
            intro hinv1
            exact ih rest hszrest sid seen table (hinv1 table rfl) hfrest
          | ok ct =>
            intro hinv1
            exact ih rest hszrest sid seen _ (hinv1 _ rfl) hfrest
        | some fs =>
          have hsid_fs : sid ∉ fs.allIds := by
            intro hx
            exact hfresh (by
              simp [StmtList.allIds, Stmt.allIds, OptScope.allIds, List.mem_append]; tauto)
          simp only [SymbolTable.fromScopeLoop, firstDupFrom]
          revert hinv1
          cases htb : SymbolTable.from_scope tb with
          | error e1 =>
            intro hinv1
            have hi1 := hinv1 table rfl
            cases hfs : SymbolTable.from_scope fs with
            | error e2 =>
              exact ih rest hszrest sid seen table hi1 hfrest
            | ok cf =>
              have hkf := (table_keys (sizeOf fs)).1 fs le_rfl cf hfs
              have hi2 := mergeChild_inv hi1 fs.id cf
                (fun e he heq => hsid_fs (heq ▸ hkf.1 e he))
                (fun e he heq => hsid_fs (heq ▸ hkf.2 e he))
                (fun heq => hsid_fs (heq ▸ scope_id_mem_allIds fs))
              exact ih rest hszrest sid seen _ hi2 hfrest
          | ok ct =>
            intro hinv1
            have hi1 := hinv1 _ rfl
            cases hfs : SymbolTable.from_scope fs with
            | error e2 =>
              exact ih rest hszrest sid seen _ hi1 hfrest
            | ok cf =>
              have hkf := (table_keys (sizeOf fs)).1 fs le_rfl cf hfs
              have hi2 := mergeChild_inv hi1 fs.id cf
                (fun e he heq => hsid_fs (heq ▸ hkf.1 e he))
                (fun e he heq => hsid_fs (heq ▸ hkf.2 e he))
                (fun heq => hsid_fs (heq ▸ scope_id_mem_allIds fs))
              exact ih rest hszrest sid seen _ hi2 hfrest

/-- C8 (amended): for a function declaration whose top-level scope id does not
collide with any nested scope id, symbol-table construction succeeds exactly
when no name is declared twice directly in the TOP-LEVEL scope; when some name
is, it fails with the duplicate-insertion error naming that name and the
top-level scope id.  Duplicates inside nested if-branch scopes are silently
swallowed (the failing child table is discarded), and shadowing across scope
levels is permitted. -/
theorem from_function_duplicate_iff (nm : String) (args : List VarInfo) (rt : Ty)
    (sid : Nat) (stmts : StmtList) (hfresh : sid ∉ stmts.allIds) :
    ((∃ t, SymbolTable.from_function (.function nm args rt (.mk sid stmts)) = .ok t) ↔
      firstDupFrom [] stmts = Option.none) ∧
    (∀ n1, firstDupFrom [] stmts = Option.some n1 →
      SymbolTable.from_function (.function nm args rt (.mk sid stmts)) =
        .error (.err (dupMsg n1 sid))) := by
  have hinv : TableInv sid SymbolTable.new [] := by
    constructor
    · intro name; simp [lookupVars, SymbolTable.new]
    · simp [lookupTree, SymbolTable.new]
  have hspec := fromScopeLoop_dup (sizeOf stmts) stmts le_rfl sid [] SymbolTable.new hinv hfresh
  have hff : SymbolTable.from_function (.function nm args rt (.mk sid stmts)) =
      SymbolTable.fromScopeLoop sid stmts SymbolTable.new := rfl
  rw [hff]
  constructor
  · constructor
    · rintro ⟨t, ht⟩
      cases hfd : firstDupFrom [] stmts with
      | none => rfl
      | some n1 =>
        rw [hspec.2 n1 hfd] at ht
        cases ht
    · intro hfd; exact hspec.1 hfd
  · exact hspec.2

/-- Witness for `from_function_duplicate_iff`: a body that shadows `x` in a
nested scope but has no top-level duplicate; construction succeeds. -/
theorem from_function_duplicate_iff_witness :
    ((∃ t, SymbolTable.from_function (.function "main" [] Ty.int (.mk 1 shadowStmts)) = .ok t) ↔
      firstDupFrom [] shadowStmts = Option.none) ∧
    (∀ n1, firstDupFrom [] shadowStmts = Option.some n1 →
      SymbolTable.from_function (.function "main" [] Ty.int (.mk 1 shadowStmts)) =
        .error (.err (dupMsg n1 1))) :=
  from_function_duplicate_iff "main" [] Ty.int 1 shadowStmts (by decide)

theorem stmtOut_trivial (lo : Nat) (s : Stmt) (h : s.allIds = []) (hp : s.postOrdered = true) :
    StmtOut lo s lo := by
  refine ⟨le_rfl, ?_, hp, ?_⟩
  · intro i hi; rw [h] at hi; cases hi
  · rw [h]; exact List.nodup_nil

theorem stmtsOut_nil (lo : Nat) : StmtsOut lo .nil lo := by
  refine ⟨le_rfl, ?_, rfl, List.nodup_nil⟩
  intro i hi
  cases hi

theorem stmtsOut_cons {lo mid hi : Nat} {s : Stmt} {l : StmtList}
    (hs : StmtOut lo s mid) (hl : StmtsOut mid l hi) :
    StmtsOut lo (.cons s l) hi := by
  obtain ⟨h1, h2, h3, h4⟩ := hs
  obtain ⟨g1, g2, g3, g4⟩ := hl
  refine ⟨le_trans h1 g1, ?_, ?_, ?_⟩
  · intro i hi
    simp only [StmtList.allIds, List.mem_append] at hi
    rcases hi with hi | hi
    · have := h2 i hi; omega
    · have := g2 i hi; omega
  · simp only [StmtList.postOrdered, h3, g3, Bool.and_self]
  · simp only [StmtList.allIds]
    rw [List.nodup_append]
    refine ⟨h4, g4, ?_⟩
    intro a ha hb
    have := h2 a ha
    have := g2 a hb
    omega

theorem stmtOut_if_no_else {c : Expr} {ts : StmtList} {c0 c1 : Nat}
    (hts : StmtsOut c0 ts c1) :
    StmtOut c0 (.ifStmt c (.mk (c1 + 1) ts) OptScope.none) (c1 + 1) := by
  obtain ⟨h1, h2, h3, h4⟩ := hts
  refine ⟨by omega, ?_, ?_, ?_⟩
  · intro i hi
    simp only [Stmt.allIds, Scope.allIds, OptScope.allIds, List.append_nil,
      List.mem_cons] at hi
    rcases hi with hi | hi
    · omega
    · have := h2 i hi; omega
  · simp only [Stmt.postOrdered, Scope.postOrdered, OptScope.postOrdered, Bool.and_true]
    rw [Bool.and_eq_true]
    refine ⟨?_, h3⟩
    rw [List.all_eq_true]
    intro i hi
    have := h2 i hi
    simp only [decide_eq_true_eq]
    omega
  · simp only [Stmt.allIds, Scope.allIds, OptScope.allIds, List.append_nil]
    rw [List.nodup_cons]
    refine ⟨?_, h4⟩
    intro hmem
    have := h2 _ hmem
    omega

theorem stmtOut_if_else {c : Expr} {ts fs : StmtList} {c0 c1 c2 : Nat}
    (hts : StmtsOut c0 ts c1) (hfs : StmtsOut c1 fs c2) :
    StmtOut c0 (.ifStmt c (.mk (c2 + 2) ts) (OptScope.some (.mk (c2 + 1) fs))) (c2 + 2) := by
  obtain ⟨h1, h2, h3, h4⟩ := hts
  obtain ⟨g1, g2, g3, g4⟩ := hfs
  refine ⟨by omega, ?_, ?_, ?_⟩
  · intro i hi
    simp only [Stmt.allIds, Scope.allIds, OptScope.allIds, List.mem_append,
      List.mem_cons] at hi
    rcases hi with (hi | hi) | (hi | hi)
    · omega
    · have := h2 i hi; omega
    · omega
    · have := g2 i hi; omega
  · simp only [Stmt.postOrdered, Scope.postOrdered, OptScope.postOrdered]
    rw [Bool.and_eq_true, Bool.and_eq_true, Bool.and_eq_true]
    refine ⟨⟨?_, h3⟩, ?_, g3⟩
    · rw [List.all_eq_true]
      intro i hi
      have := h2 i hi
      simp only [decide_eq_true_eq]
      omega
    · rw [List.all_eq_true]
      intro i hi
      have := g2 i hi
      simp only [decide_eq_true_eq]
      omega
  · simp only [Stmt.allIds, Scope.allIds, OptScope.allIds]
    rw [List.nodup_append]
    refine ⟨?_, ?_, ?_⟩
    · rw [List.nodup_cons]
      refine ⟨fun hmem => ?_, h4⟩
      have := h2 _ hmem
      omega
    · rw [List.nodup_cons]
      refine ⟨fun hmem => ?_, g4⟩
      have := g2 _ hmem
      omega
    · intro a ha hb
      simp only [List.mem_cons] at ha hb
      rcases ha with ha | ha <;> rcases hb with hb | hb
      · omega
      · have := g2 a hb; omega
      · have := h2 a ha; omega
      · have := h2 a ha; have := g2 a hb; omega

theorem expectT_state {tokens : List Token} {tok : Token} {st : PState} {t : Token} {st' : PState}
    (h : expectT tokens tok st = .ok (t, st')) : st' = bumpP st := by
  rw [expectT] at h
  split at h
  · split at h
    · cases h; rfl
    · cases h
  · cases h

theorem parseTypeToken_state {tokens : List Token} {st : PState} {ty : Ty} {st' : PState}
    (h : parseTypeToken tokens st = .ok (ty, st')) : st' = bumpP st := by
  rw [parseTypeToken] at h
  split at h
  · cases h; rfl
  split at h
  · cases h; rfl
  split at h
  · cases h; rfl
  split at h
  · cases h; rfl
  · cases h
  · split at h
    · cases h
    · split at h <;> cases h

theorem parseNameToken_state {tokens : List Token} {st : PState} {nm : String} {st' : PState}
    (h : parseNameToken tokens st = .ok (nm, st')) : st' = bumpP st := by
  rw [parseNameToken] at h
  split at h
  · cases h; rfl
  · cases h
  · split at h
    · cases h
    · split at h <;> cases h

theorem parser_inv (tokens : List Token) (fuel : Nat) :
    (∀ st e st', parse_primary_expression tokens fuel st = .ok (e, st') →
      st'.counter = st.counter) ∧
    (∀ st e st', parse_parenthesis tokens fuel st = .ok (e, st') →
      st'.counter = st.counter) ∧
    (∀ st e st', parse_expression tokens fuel st = .ok (e, st') →
      st'.counter = st.counter) ∧
    (∀ lhs mp st e st', parse_expression_precedence tokens fuel lhs mp st = .ok (e, st') →
      st'.counter = st.counter) ∧
    (∀ op rhs st e st', parse_expression_precedence_inner tokens fuel op rhs st = .ok (e, st') →
      st'.counter = st.counter) ∧
    (∀ st s st', parse_variable_declaration tokens fuel st = .ok (s, st') →
      st'.counter = st.counter ∧ s.allIds = [] ∧ s.postOrdered = true) ∧
    (∀ st s st', parse_if_else tokens fuel st = .ok (s, st') →
      StmtOut st.counter s st'.counter) ∧
    (∀ st s st', parse_statement tokens fuel st = .ok (s, st') →
      StmtOut st.counter s st'.counter) ∧
    (∀ st l st', parse_brace_block tokens fuel st = .ok (l, st') →
      StmtsOut st.counter l st'.counter) ∧
    (∀ st l st', parse_brace_block_loop tokens fuel st = .ok (l, st') →
      StmtsOut st.counter l st'.counter) := by
  induction fuel with
  | zero =>
    refine ⟨?_, ?_, ?_, ?_, ?_, ?_, ?_, ?_, ?_, ?_⟩
    · intro st e st' h; simp only [parse_primary_expression] at h; cases h
    · intro st e st' h; simp only [parse_parenthesis] at h; cases h
    · intro st e st' h; simp only [parse_expression] at h; cases h
    · intro lhs mp st e st' h; simp only [parse_expression_precedence] at h; cases h
    · intro op rhs st e st' h; simp only [parse_expression_precedence_inner] at h; cases h
    · intro st s st' h; simp only [parse_variable_declaration] at h; cases h
    · intro st s st' h; simp only [parse_if_else] at h; cases h
    · intro st s st' h; simp only [parse_statement] at h; cases h
    · intro st l st' h; simp only [parse_brace_block] at h; cases h
    · intro st l st' h; simp only [parse_brace_block_loop] at h; cases h
  | succ n ih =>
    obtain ⟨ippe, ipp, ipe, ipep, ipepi, ipvd, ipie, ips, ipbb, ipbbl⟩ := ih
    refine ⟨?_, ?_, ?_, ?_, ?_, ?_, ?_, ?_, ?_, ?_⟩
    · -- parse_primary_expression
      intro st e st' h
      simp only [parse_primary_expression] at h
      split at h
      · cases h; rfl
      · cases h; rfl
      · cases h; rfl
      · exact ipp st e st' h
      · cases h
    · -- parse_parenthesis
      intro st e st' h
      simp only [parse_parenthesis] at h
      obtain ⟨⟨t1, st1⟩, h1, h⟩ := exceptBindOk h
      obtain ⟨⟨inner, st2⟩, h2, h⟩ := exceptBindOk h
      obtain ⟨⟨t3, st3⟩, h3, h⟩ := exceptBindOk h
      cases h
      have e1 := expectT_state h1; subst e1
      have e3 := expectT_state h3; subst e3
      have c2 := ipe _ _ _ h2
      have c2' : st2.counter = st.counter := c2
      exact c2'
    · -- parse_expression
      intro st e st' h
      simp only [parse_expression] at h
      obtain ⟨⟨lhs, st1⟩, h1, h2⟩ := exceptBindOk h
      have c1 := ippe _ _ _ h1
      have c1' : st1.counter = st.counter := c1
      have c2 := ipep _ _ _ _ _ h2
      have c2' : st'.counter = st1.counter := c2
      omega
    · -- parse_expression_precedence
      intro lhs mp st e st' h
      simp only [parse_expression_precedence] at h
      split at h
      · cases h; rfl
      · split at h
        · cases h; rfl
        · split at h
          · obtain ⟨⟨rhs0, st2⟩, h1, h⟩ := exceptBindOk h
            obtain ⟨⟨rhs, st3⟩, h2, h⟩ := exceptBindOk h
            have c1 := ippe _ _ _ h1
            have c1' : st2.counter = st.counter := c1
            have c2 := ipepi _ _ _ _ _ h2
            have c2' : st3.counter = st2.counter := c2
            have c3 := ipep _ _ _ _ _ h
            have c3' : st'.counter = st3.counter := c3
            omega
          · cases h; rfl
    · -- parse_expression_precedence_inner
      intro op rhs st e st' h
      simp only [parse_expression_precedence_inner] at h
      split at h
      · cases h; rfl
      · split at h
        · cases h; rfl
        · split at h
          · obtain ⟨⟨rhs1, st1⟩, h1, h⟩ := exceptBindOk h
            have c1 := ipep _ _ _ _ _ h1
            have c1' : st1.counter = st.counter := c1
            have c2 := ipepi _ _ _ _ _ h
            have c2' : st'.counter = st1.counter := c2
            omega
          · cases h; rfl
    · -- parse_variable_declaration
      intro st s st' h
      simp only [parse_variable_declaration] at h
      obtain ⟨⟨varType, st1⟩, h1, h⟩ := exceptBindOk h
      obtain ⟨⟨name, st2⟩, h2, h⟩ := exceptBindOk h
      have e1 := parseTypeToken_state h1; subst e1
      have e2 := parseNameToken_state h2; subst e2
      split at h
      · cases h
        exact ⟨rfl, rfl, rfl⟩
      · obtain ⟨⟨t3, st3⟩, h3, h⟩ := exceptBindOk h
        obtain ⟨⟨ex, st4⟩, h4, h⟩ := exceptBindOk h
        obtain ⟨⟨t5, st5⟩, h5, h⟩ := exceptBindOk h
        cases h
        have e3 := expectT_state h3; subst e3
        have e5 := expectT_state h5; subst e5
        have c4 := ipe _ _ _ h4
        have c4' : st4.counter = st.counter := c4
        exact ⟨c4', rfl, rfl⟩
    · -- parse_if_else
      intro st s st' h
      simp only [parse_if_else] at h
      obtain ⟨⟨t1, st1⟩, h1, hA⟩ := exceptBindOk h
      obtain ⟨⟨t2, st2⟩, h2, hB⟩ := exceptBindOk hA
      obtain ⟨⟨cond, st3⟩, h3, hC⟩ := exceptBindOk hB
      obtain ⟨⟨t4, st4⟩, h4, hD⟩ := exceptBindOk hC
      obtain ⟨⟨ts, st5⟩, h5, hE⟩ := exceptBindOk hD
      have e1 := expectT_state h1; subst e1
      have e2 := expectT_state h2; subst e2
      have e4 := expectT_state h4; subst e4
      have c3 := ipe _ _ _ h3
      have c3' : st3.counter = st.counter := c3
      have c5 := ipbb _ _ _ h5
      have c5' : StmtsOut st3.counter ts st5.counter := c5
      have hts : StmtsOut st.counter ts st5.counter := by
        rw [← c3']; exact c5'
      by_cases hb : peekT tokens (ts, st5).2 = Option.some (Token.keyword "else")
      · rw [if_pos hb] at hE
        obtain ⟨⟨t6, st6⟩, h6, hF⟩ := exceptBindOk hE
        obtain ⟨⟨fs, st7⟩, h7, hG⟩ := exceptBindOk hF
        have e6 := expectT_state h6; subst e6
        have c7 := ipbb _ _ _ h7
        have hfs : StmtsOut st5.counter fs st7.counter := c7
        simp only [Scope.from_statements] at hG
        cases hG
        exact stmtOut_if_else hts hfs
      · rw [if_neg hb] at hE
        simp only [Scope.from_statements] at hE
        cases hE
        exact stmtOut_if_no_else hts
    · -- parse_statement
      intro st s st' h
      simp only [parse_statement] at h
      split at h
      · obtain ⟨⟨ex, st1⟩, h1, h⟩ := exceptBindOk h
        obtain ⟨⟨t2, st2⟩, h2, h⟩ := exceptBindOk h
        cases h
        have e2 := expectT_state h2; subst e2
        have c1 := ipe _ _ _ h1
        have c1' : st1.counter = st.counter := c1
        have h0 : StmtOut st.counter (Stmt.ret ex) st1.counter := by
          rw [c1']; exact stmtOut_trivial _ _ rfl rfl
        exact h0
      split at h
      · exact ipie _ _ _ h
      split at h
      · obtain ⟨hc, ha, hp⟩ := ipvd _ _ _ h
        rw [hc]
        exact stmtOut_trivial _ _ ha hp
      split at h
      · obtain ⟨hc, ha, hp⟩ := ipvd _ _ _ h
        rw [hc]
        exact stmtOut_trivial _ _ ha hp
      split at h
      · obtain ⟨hc, ha, hp⟩ := ipvd _ _ _ h
        rw [hc]
        exact stmtOut_trivial _ _ ha hp
      split at h
      · cases h
      · obtain ⟨⟨ex, st1⟩, h1, h⟩ := exceptBindOk h
        obtain ⟨⟨t2, st2⟩, h2, h⟩ := exceptBindOk h
        cases h
        have e2 := expectT_state h2; subst e2
        have c1 := ipe _ _ _ h1
        have c1' : st1.counter = st.counter := c1
        have h0 : StmtOut st.counter (Stmt.expression ex) st1.counter := by
          rw [c1']; exact stmtOut_trivial _ _ rfl rfl
        exact h0
    · -- parse_brace_block
      intro st l st' h
      simp only [parse_brace_block] at h
      obtain ⟨⟨t1, st1⟩, h1, h⟩ := exceptBindOk h
      obtain ⟨⟨stmts, st2⟩, h2, h⟩ := exceptBindOk h
      obtain ⟨⟨t3, st3⟩, h3, h⟩ := exceptBindOk h
      cases h
      have e1 := expectT_state h1; subst e1
      have e3 := expectT_state h3; subst e3
      have c2 := ipbbl _ _ _ h2
      have c2' : StmtsOut st.counter stmts st2.counter := c2
      exact c2'
    · -- parse_brace_block_loop
      intro st l st' h
      simp only [parse_brace_block_loop] at h
      split at h
      · cases h; exact stmtsOut_nil _
      · obtain ⟨⟨s1, st1⟩, h1, h⟩ := exceptBindOk h
        obtain ⟨⟨rest, st2⟩, h2, h⟩ := exceptBindOk h
        cases h
        have hs1 : StmtOut st.counter s1 st1.counter := ips _ _ _ h1
        have hl1 := ipbbl _ _ _ h2
        have hl1' : StmtsOut st1.counter rest st2.counter := hl1
        exact stmtsOut_cons hs1 hl1'

/-- C2: for every successfully parsed program, scope ids are assigned
post-order over the nesting structure — every scope's id strictly exceeds every
scope id nested within it and the ids of one parse are pairwise distinct;
concretely, for the body `if(x){ return 1; }else{ return 0; }` inside `main`,
the true branch's scope gets id 2, the false branch's scope id 1, and the
enclosing function scope id 3. -/
theorem scope_ids_postorder :
    (∀ fuel tokens decls, parse fuel tokens = .ok decls →
      ∀ d ∈ decls, (Declaration.scope d).postOrdered = true ∧
        (Declaration.scope d).allIds.Nodup) ∧
    tokenize "int main() { if(x){ return 1; }else{ return 0; }}" = .ok ifOnlyToks ∧
    parse 99 ifOnlyToks = .ok [ifOnlyDecl] := by
  refine ⟨?_, rfl, rfl⟩
  intro fuel tokens decls h d hd
  rw [parse] at h
  split at h
  · cases h
  · split at h
    · cases h
    split at h
    · cases h
    split at h
    · cases h
    · split at h
      · cases h
      split at h
      · cases h
      · rename_i body stp heq
        simp only [Scope.from_statements] at h
        cases h
        rw [List.mem_singleton] at hd
        subst hd
        have hout := (parser_inv _ fuel).2.2.2.2.2.2.2.2.1 _ _ _ heq
        have hout' : StmtsOut 0 body stp.counter := hout
        obtain ⟨hle, hbnd, hpo, hnd⟩ := hout'
        constructor
        · simp only [Declaration.scope, Scope.postOrdered]
          rw [Bool.and_eq_true]
          refine ⟨?_, hpo⟩
          rw [List.all_eq_true]
          intro i hi
          have := hbnd i hi
          simp only [decide_eq_true_eq]
          omega
        · simp only [Declaration.scope, Scope.allIds]
          rw [List.nodup_cons]
          refine ⟨fun hmem => ?_, hnd⟩
          have := hbnd _ hmem
          omega

/-- Witness for `scope_ids_postorder` on the concrete if/else program. -/
theorem scope_ids_postorder_witness :
    (Declaration.scope ifOnlyDecl).postOrdered = true ∧
    (Declaration.scope ifOnlyDecl).allIds.Nodup :=
  scope_ids_postorder.1 99 ifOnlyToks [ifOnlyDecl] (by rfl) ifOnlyDecl (by simp)
